import Mathlib

/-!
Shallow embedding of the debugger engine of `src/src/debugger/RDebugger.cpp`
(Rkernel). Two layers are modelled:

* the stack builder (`RDebugger::getContextDump` / `RDebugger::buildStack` /
  `RDebugger::getLastErrorStack`), which is a pure function of a snapshot of
  the interpreter's call-context chain, and
* the stateful engine (breakpoint store, stepping state machine, the
  `doBreakpoint` firing logic and the `doBegin` interceptor loop), modelled as
  explicit state passing over a `DebuggerState` record.

Interpreter-owned data (SEXPs) is represented by the attributes the code
actually reads: a srcref carries a file, a line, and the
`isPhysicalFileFlag` of its `srcfile` attribute; an environment carries an
identity, the `stackBottomAttr` flag and the optional `realEnvAttr` redirect;
a call carries the name `getCallFunctionName` would return and the optional
`srcrefAttr`.  `R_NilValue` is represented by `Option.none` throughout.
External collaborators (the source reference resolver
`sourceFileManager.getStepSrcref`, `srcrefToPosition`, and the R evaluator
used for breakpoint conditions) are parameters gathered in a `World` record.
-/

namespace RDebuggerModel

/-- The debugger command enum of `RDebugger.h` (values as listed in the spec
data model and used by `RDebugger.cpp`). -/
inductive DebuggerCommand where
  | CONTINUE
  | STEP_INTO
  | FORCE_STEP_INTO
  | STEP_OVER
  | STEP_OUT
  | PAUSE
  | STOP
deriving DecidableEq, Repr

/-! ## Stack builder (`buildStack`, lines 330-372) -/

/-- A non-nil srcref: its position and whether the `srcfile` attribute of the
srcref carries the `isPhysicalFileFlag` (read in `doBegin` line 261 and
`buildStack` line 354). -/
structure Srcref where
  file : String
  line : Int
  physical : Bool
deriving DecidableEq, Repr

/-- A non-nil call expression: the name `getCallFunctionName` returns for it
and its `srcrefAttr` attribute (read in `buildStack` line 344). -/
structure RCall where
  name : String
  srcref : Option Srcref
deriving DecidableEq, Repr

/-- A non-nil environment as seen by the stack builder: an identity (used as
`equalityobject`), the `stackBottomAttr` flag (line 350) and the
`realEnvAttr` redirect (line 357), which names the identity of the
substituted environment. -/
structure REnv where
  id : Nat
  stackBottom : Bool
  realEnv : Option Nat
deriving DecidableEq, Repr

/-- One entry of `RDebugger::getContextDump`'s result (struct `ContextDump`):
call, function, srcref, environment.  The interpreter function value is
represented by what the builder extracts from it: `functionSrcref = none`
models a nil function; `some fs` models a non-nil function whose
`sourceFileManager.getFunctionSrcref` result is `fs`. -/
structure ContextDump where
  call : Option RCall
  functionSrcref : Option (Option Srcref)
  srcref : Option Srcref
  environment : Option REnv
deriving DecidableEq, Repr

/-- The externally visible stack frame (`RDebuggerStackFrame`): file id, line,
environment identity (`none` for `R_NilValue`), function name. -/
structure RDebuggerStackFrame where
  fileId : String
  line : Int
  environment : Option Nat
  functionName : String
deriving DecidableEq, Repr

/-- Name of a call expression; `getCallFunctionName` of `R_NilValue` is
modelled as the empty string. -/
def callName : Option RCall → String
  | none => ""
  | some c => c.name

/-- Position of a srcref (`srcrefToPosition`); the nil srcref is modelled as
position `("", 0)`. -/
def srcrefToPosition : Option Srcref → String × Int
  | none => ("", 0)
  | some s => (s.file, s.line)

/-- Whether `Rf_getAttrib(srcfile, isPhysicalFileFlag)` of the srcref's
srcfile is non-nil; a nil srcref has a nil srcfile, hence `false`. -/
def isPhysicalSrcref : Option Srcref → Bool
  | none => false
  | some s => s.physical

/-- The effective srcref of a context entry, per `buildStack` lines 341-348:
the entry's own srcref, else the `srcrefAttr` of its call, else the enclosing
function's srcref tracked from previous iterations. -/
def effectiveSrcref (functionSrcref : Option Srcref) (ctx : ContextDump) :
    Option Srcref :=
  match ctx.srcref with
  | some s => some s
  | none =>
    match ctx.call with
    | some c =>
      match c.srcref with
      | some s => some s
      | none => functionSrcref
    | none => functionSrcref

/-- Whether the previous frame carries the `stackBottomAttr` sentinel
(`buildStack` line 350). -/
def frameStackBottom : Option REnv → Bool
  | none => false
  | some e => e.stackBottom

/-- Environment identity exported for an emitted frame (`buildStack` lines
357-360): the previous frame's environment, redirected through
`realEnvAttr` when present. -/
def exportedEnvId : Option REnv → Option Nat
  | none => none
  | some e =>
    match e.realEnv with
    | some r => some r
    | none => some e.id

/-- The loop state of `RDebugger::buildStack`: the accumulated stack, the
`wasStackBottom` latch, and the `functionName` / `frame` / `functionSrcref`
variables remembered from the previous iteration. -/
structure BuildAcc where
  stack : List RDebuggerStackFrame
  wasStackBottom : Bool
  functionName : String
  frame : Option REnv
  functionSrcref : Option Srcref
deriving DecidableEq, Repr

/-- Initial loop state of `buildStack` (lines 335-338). -/
def buildAccInit : BuildAcc :=
  { stack := [], wasStackBottom := false, functionName := "",
    frame := none, functionSrcref := none }

/-- One iteration of the `buildStack` loop (lines 339-370). -/
def buildStep (acc : BuildAcc) (ctx : ContextDump) : BuildAcc :=
  let srcref := effectiveSrcref acc.functionSrcref ctx
  let stackAndBottom :=
    if frameStackBottom acc.frame ∧ ctx.environment ≠ none then
      (([] : List RDebuggerStackFrame), true)
    else
      let wsb := acc.wasStackBottom || isPhysicalSrcref srcref
      if ctx.call ≠ none ∧ wsb then
        let pos := srcrefToPosition srcref
        let name := if acc.stack = [] then "" else acc.functionName
        (acc.stack ++
          [{ fileId := pos.1, line := pos.2,
             environment := exportedEnvId acc.frame, functionName := name }],
          wsb)
      else (acc.stack, wsb)
  { stack := stackAndBottom.1
    wasStackBottom := stackAndBottom.2
    functionName := callName ctx.call
    functionSrcref :=
      match ctx.functionSrcref with
      | some fs => fs
      | none => acc.functionSrcref
    frame := ctx.environment }

/-- The stack builder `RDebugger::buildStack` (lines 330-372): a left fold of
`buildStep` over the context dump, returning the accumulated stack. -/
def buildStack (contexts : List ContextDump) : List RDebuggerStackFrame :=
  (contexts.foldl buildStep buildAccInit).stack

/-- One entry of the live call-context chain as walked by
`RDebugger::getContextDump` (innermost first): whether it is a call context,
and the fields the dump copies out of it. -/
structure LiveCtx where
  isCall : Bool
  call : Option RCall
  functionSrcref : Option (Option Srcref)
  srcref : Option Srcref
  environment : Option REnv
deriving DecidableEq, Repr

/-- `RDebugger::getContextDump` (lines 313-328): an initial entry for the
current call and `R_Srcref`, then every call context of the chain
(innermost first), all reversed to outermost-first order. -/
def getContextDump (chain : List LiveCtx) (currentCall : Option RCall)
    (curSrcref : Option Srcref) : List ContextDump :=
  let initial : ContextDump :=
    { call := currentCall, functionSrcref := none, srcref := curSrcref,
      environment := none }
  let rest := (chain.filter (·.isCall)).map
    (fun c => ({ call := c.call, functionSrcref := c.functionSrcref,
                 srcref := c.srcref, environment := c.environment } :
               ContextDump))
  (initial :: rest).reverse

/-- The effective srcrefs of a dump, threading the enclosing-function
fallback exactly as the `buildStack` loop does. -/
def effList (functionSrcref : Option Srcref) :
    List ContextDump → List (Option Srcref)
  | [] => []
  | ctx :: rest =>
    effectiveSrcref functionSrcref ctx ::
      effList
        (match ctx.functionSrcref with
         | some fs => fs
         | none => functionSrcref) rest

/-- Physicality of each context's effective srcref, in dump order. -/
def physAt (contexts : List ContextDump) : List Bool :=
  (effList none contexts).map isPhysicalSrcref

/-- A dump has no stack-bottom sentinel when no entry's environment carries
the `stackBottomAttr` flag. -/
def noSentinel (contexts : List ContextDump) : Bool :=
  contexts.all (fun ctx => !frameStackBottom ctx.environment)

/-- `RDebugger::getLastErrorStack` (lines 388-392): build the stack from the
stored failure-time dump and drop the last (innermost) frame. -/
def getLastErrorStack (lastErrorStackDump : List ContextDump) :
    List RDebuggerStackFrame :=
  (buildStack lastErrorStackDump).dropLast

/-- `RDebugger::resetLastErrorStack` (lines 394-396): clear the stored dump. -/
def resetLastErrorStack (_lastErrorStackDump : List ContextDump) :
    List ContextDump :=
  []

/-! ## Stateful engine (breakpoint store, stepping state machine, firing) -/

/-- Breakpoint data (`BreakpointInfo`): condition text, log-expression text,
and the suspend flag. -/
structure BreakpointInfo where
  condition : String
  evaluateAndLog : String
  suspend : Bool
deriving DecidableEq, Repr

/-- A stored breakpoint entry (`InternalBreakpointInfo`): the identity of its
`BreakpointInfo` (stable for the entry's lifetime, standing for the C++
object's address), the resolved step-target srcref (`none` when unresolved),
and the info contents. -/
structure BpEntry where
  infoId : Nat
  srcref : Option Nat
  info : BreakpointInfo
deriving DecidableEq, Repr

/-- A live call-context chain entry as seen by `setCommand` (lines 126-150):
whether `isCallContext` holds and the identity of `getEnvironment(ctx)`.
Call contexts always carry a real environment. -/
structure RCtx where
  isCall : Bool
  env : Nat
deriving DecidableEq, Repr

/-- External collaborators of the engine, fixed during a scenario:
`resolve` is `sourceFileManager.getStepSrcref`; `srcPos` is
`srcrefToPosition` on machine-level srcref identities; `physical` is the
`isPhysicalFileFlag` of a srcref's srcfile; `evalCond` is the R evaluator
applied to a condition text in an environment, with `none` standing for a
raised `RError` (parse or evaluation failure). -/
structure World where
  resolve : String → Int → Option Nat
  srcPos : Nat → String × Int
  physical : Nat → Bool
  evalCond : String → Option Nat → Option Bool

/-- The engine state of `RDebugger` plus the interpreter-global flags the
code reads and writes.  Srcrefs and environments are named by `Nat`
identities; `rdebug` is the set of srcrefs whose `RDEBUG` bit is set;
`attrib` maps a srcref identity to the `breakpointInfoAttr` back-reference
(the attached `BreakpointInfo` identity); `stopHereFlags` is the set of
environments carrying `stopHereFlagAttr`.  `hostCommands` is the queue of
commands the host will issue at successive debug prompts.  `resolveCount`,
`condChecks`, `logChecks` and `suspensions` count calls to the step-target
resolver, entries into `checkCondition`, entries into `evaluateAndLog`, and
invocations of the blocking debug prompt. -/
structure DebuggerState where
  isEnabled : Bool
  currentCommand : DebuggerCommand
  breakpointsMuted : Bool
  runToPositionTarget : Option Nat
  rdebug : List Nat
  attrib : List (Nat × Nat)
  breakpoints : List ((String × Int) × BpEntry)
  nextId : Nat
  contexts : List RCtx
  stopHereFlags : List Nat
  interruptsPending : Bool
  hostCommands : List DebuggerCommand
  resolveCount : Nat
  condChecks : Nat
  logChecks : Nat
  suspensions : Nat
deriving DecidableEq, Repr

/-- Look up the breakpoint store (`breakpoints[file]` then `find(line)`,
modelled as one flat association list keyed by `(file, line)`). -/
def lookupBp (bps : List ((String × Int) × BpEntry)) (file : String)
    (line : Int) : Option BpEntry :=
  match bps with
  | [] => none
  | (k, e) :: rest => if k = (file, line) then some e else lookupBp rest file line

/-- Erase the entry for a key (`std::map::erase`; under the map's
key-uniqueness invariant removing every pair with this key is the same as
removing the one node). -/
def eraseBp (bps : List ((String × Int) × BpEntry)) (file : String)
    (line : Int) : List ((String × Int) × BpEntry) :=
  bps.filter (fun p => p.1 ≠ (file, line))

/-- Replace the entry stored for a key, leaving other keys untouched. -/
def replaceBp (bps : List ((String × Int) × BpEntry)) (file : String)
    (line : Int) (e : BpEntry) : List ((String × Int) × BpEntry) :=
  bps.map (fun p => if p.1 = (file, line) then (p.1, e) else p)

/-- Remove an identity from a flag set (clearing an attribute / bit). -/
def removeFlag (flags : List Nat) (e : Nat) : List Nat :=
  flags.filter (· ≠ e)

/-- Add an identity to a flag set (setting an attribute / bit). -/
def addFlag (flags : List Nat) (e : Nat) : List Nat :=
  if e ∈ flags then flags else e :: flags

/-- `setBreakpointInfoAttrib` (lines 62-68) on the attribute side-table:
detach (`info == nullptr`) removes the pair, attach stores the info
identity. -/
def setAttribTable (attrib : List (Nat × Nat)) (t : Nat) (v : Option Nat) :
    List (Nat × Nat) :=
  match v with
  | none => attrib.filter (·.1 ≠ t)
  | some i => (t, i) :: attrib.filter (·.1 ≠ t)

/-- Look up the `breakpointInfoAttr` back-reference of a srcref
(`getBreakpointInfoAttrib`, lines 70-76). -/
def lookupAttrib (attrib : List (Nat × Nat)) (t : Nat) : Option Nat :=
  match attrib with
  | [] => none
  | (k, i) :: rest => if k = t then some i else lookupAttrib rest t

/-- `RDEBUG` of a possibly-nil srcref; the nil srcref's bit reads as unset. -/
def rdebugOf (st : DebuggerState) (s : Option Nat) : Bool :=
  match s with
  | none => false
  | some t => t ∈ st.rdebug

/-- The `BreakpointInfo` a srcref's back-reference points to, resolved
through the store (the C++ pointer dereference). -/
def attribInfoOf (st : DebuggerState) (s : Option Nat) :
    Option BreakpointInfo :=
  match s with
  | none => none
  | some t =>
    match lookupAttrib st.attrib t with
    | none => none
    | some infoId =>
      match st.breakpoints.find? (fun p => p.2.infoId = infoId) with
      | none => none
      | some p => some p.2.info

/-- `RDebugger::muteBreakpoints` (lines 58-60). -/
def muteBreakpoints (st : DebuggerState) (mute : Bool) : DebuggerState :=
  { st with breakpointsMuted := mute }

/-- `RDebugger::addBreakpoint` (lines 78-91): insert if absent; on a fresh
insert resolve the step target, and if resolution succeeds set its `RDEBUG`
bit and attach the info back-reference.  Returns the new state together with
the identity of the returned `BreakpointInfo&`.  A fresh `BreakpointInfo` is
default-constructed (empty condition, empty log text, no suspend). -/
def addBreakpoint (w : World) (st : DebuggerState) (file : String)
    (line : Int) : DebuggerState × Nat :=
  match lookupBp st.breakpoints file line with
  | some e => (st, e.infoId)
  | none =>
    let infoId := st.nextId
    let srcref := w.resolve file line
    let entry : BpEntry :=
      { infoId := infoId, srcref := srcref,
        info := { condition := "", evaluateAndLog := "", suspend := false } }
    let st :=
      { st with
        breakpoints := ((file, line), entry) :: st.breakpoints
        nextId := st.nextId + 1
        resolveCount := st.resolveCount + 1 }
    match srcref with
    | none => (st, infoId)
    | some t =>
      ({ st with
         rdebug := addFlag st.rdebug t
         attrib := setAttribTable st.attrib t (some infoId) }, infoId)

/-- `RDebugger::removeBreakpoint` (lines 93-103): if present, detach the
back-reference and clear the `RDEBUG` bit on the entry's srcref (both no-ops
on the nil srcref), then erase the entry. -/
def removeBreakpoint (st : DebuggerState) (file : String) (line : Int) :
    DebuggerState :=
  match lookupBp st.breakpoints file line with
  | none => st
  | some e =>
    { st with
      attrib :=
        match e.srcref with
        | none => st.attrib
        | some t => setAttribTable st.attrib t none
      rdebug :=
        match e.srcref with
        | none => st.rdebug
        | some t => removeFlag st.rdebug t
      breakpoints := eraseBp st.breakpoints file line }

/-- `RDebugger::refreshBreakpoint` (lines 105-120): if present, detach from
the old srcref, re-resolve, store the new srcref and re-arm it when
resolution succeeds. -/
def refreshBreakpoint (w : World) (st : DebuggerState) (file : String)
    (line : Int) : DebuggerState :=
  match lookupBp st.breakpoints file line with
  | none => st
  | some e =>
    let rdebugDetached :=
      match e.srcref with
      | none => st.rdebug
      | some t => removeFlag st.rdebug t
    let attribDetached :=
      match e.srcref with
      | none => st.attrib
      | some t => setAttribTable st.attrib t none
    let srcref := w.resolve file line
    { st with
      breakpoints := replaceBp st.breakpoints file line { e with srcref := srcref }
      resolveCount := st.resolveCount + 1
      rdebug :=
        match srcref with
        | none => rdebugDetached
        | some t => addFlag rdebugDetached t
      attrib :=
        match srcref with
        | none => attribDetached
        | some t => setAttribTable attribDetached t (some e.infoId) }

/-- `RDebugger::resetRunToPositionTarget` (lines 163-170): if a transient
target is armed, clear its `RDEBUG` bit, re-derive the breakpoint state for
its position via `refreshBreakpoint`, and forget the target. -/
def resetRunToPositionTarget (w : World) (st : DebuggerState) :
    DebuggerState :=
  match st.runToPositionTarget with
  | none => st
  | some t =>
    { refreshBreakpoint w { st with rdebug := removeFlag st.rdebug t }
        (w.srcPos t).1 (w.srcPos t).2
      with runToPositionTarget := none }

/-- The per-call-frame marker update of `setCommand`'s switch (lines
131-146): `CONTINUE` and `STEP_INTO` clear the frame's `stopHereFlagAttr`,
`STEP_OVER` sets it, `STEP_OUT` clears it on the first (innermost) call
frame and sets it on the others, and the remaining commands leave it
untouched. -/
def stopFlagOp (c : DebuggerCommand) (isFirst : Bool) (flags : List Nat)
    (env : Nat) : List Nat :=
  match c with
  | DebuggerCommand.CONTINUE => removeFlag flags env
  | DebuggerCommand.STEP_INTO => removeFlag flags env
  | DebuggerCommand.STEP_OVER => addFlag flags env
  | DebuggerCommand.STEP_OUT =>
    if isFirst then removeFlag flags env else addFlag flags env
  | _ => flags

/-- The context-chain walk of `setCommand` (lines 126-150): for each call
context (innermost first), apply `stopFlagOp` to the environment's
`stopHereFlagAttr`; `isFirst` tracks whether the innermost call context has
been seen yet. -/
def walkSetFlags (c : DebuggerCommand) :
    List RCtx → Bool → List Nat → List Nat
  | [], _, flags => flags
  | ctx :: rest, isFirst, flags =>
    if ctx.isCall then
      walkSetFlags c rest false (stopFlagOp c isFirst flags ctx.env)
    else
      walkSetFlags c rest isFirst flags

/-- `RDebugger::setCommand` (lines 122-151): record the command, clear the
transient run-to-position target, and walk the live call-context chain
updating the per-frame stop-here markers. -/
def setCommand (w : World) (st : DebuggerState) (c : DebuggerCommand) :
    DebuggerState :=
  let st := { st with currentCommand := c }
  let st := resetRunToPositionTarget w st
  let st := { st with runToPositionTarget := none }
  { st with stopHereFlags := walkSetFlags c st.contexts true st.stopHereFlags }

/-- `RDebugger::setRunToPositionCommand` (lines 153-161): command becomes
`CONTINUE`, any prior target is cleared, and the new position is resolved
and armed when resolution succeeds. -/
def setRunToPositionCommand (w : World) (st : DebuggerState)
    (fileId : String) (line : Int) : DebuggerState :=
  let st := { st with currentCommand := DebuggerCommand.CONTINUE }
  let st := resetRunToPositionTarget w st
  let srcref := w.resolve fileId line
  let st := { st with resolveCount := st.resolveCount + 1 }
  match srcref with
  | none => st
  | some t =>
    { st with runToPositionTarget := some t, rdebug := addFlag st.rdebug t }

/-- `checkCondition` (lines 172-184): an empty condition is `true`; otherwise
the condition text is parsed and evaluated with the debugger's firing
disabled, and a raised `RError` (represented by the oracle returning `none`)
is caught and treated as `false`. -/
def checkCondition (w : World) (condition : String) (env : Option Nat) :
    Bool :=
  if condition = "" then true
  else
    match w.evalCond condition env with
    | none => false
    | some b => b

/-- Whether `R_Srcref` is non-nil and equals the run-to-position target
(`doBreakpoint` line 210). -/
def rtpHit (st : DebuggerState) (cur : Option Nat) : Bool :=
  match cur, st.runToPositionTarget with
  | some a, some b => a = b
  | _, _ => false

/-- The breakpoint-processing step of `doBreakpoint` (lines 211-218): unless
breakpoints are muted or no breakpoint is attached, enter `checkCondition`;
when the condition holds, enter `evaluateAndLog` and let the breakpoint's
suspend flag force suspension.  Returns the updated state and the suspend
decision. -/
def processBp (w : World) (st : DebuggerState) (bp : Option BreakpointInfo)
    (env : Option Nat) (suspend0 : Bool) : DebuggerState × Bool :=
  match bp with
  | none => (st, suspend0)
  | some info =>
    if st.breakpointsMuted then (st, suspend0)
    else
      let st := { st with condChecks := st.condChecks + 1 }
      if checkCondition w info.condition env then
        let st := { st with logChecks := st.logChecks + 1 }
        (st, suspend0 || info.suspend)
      else (st, suspend0)

/-- Modelled from the spec: the blocking prompt callback
`rpiService->debugPromptHandler` is code outside `src/`; per the spec it
must not return until the host has issued a new `DebuggerCommand`, so it is
modelled as applying the next queued host command via `setCommand` (or
leaving the prompt-normalized state as is when the queue is empty). -/
def promptApply (w : World) (st : DebuggerState) : DebuggerState :=
  match st.hostCommands with
  | [] => st
  | c :: rest => setCommand w { st with hostCommands := rest } c

/-- The suspension path of `doBreakpoint` (lines 221-224): normalize the
command to `CONTINUE` (which also clears the run-to-position target), build
the stack snapshot (counted in `suspensions`), and run the blocking debug
prompt. -/
def firePrompt (w : World) (st : DebuggerState) : DebuggerState :=
  promptApply w
    { setCommand w st DebuggerCommand.CONTINUE with
      suspensions := (setCommand w st DebuggerCommand.CONTINUE).suspensions + 1 }

/-- `RDebugger::doBreakpoint` (lines 199-226).  Early-out when disabled or an
interrupt is pending; a current `STOP` command is turned into `CONTINUE`
plus a raised interpreter interrupt without suspending; otherwise the
suspend decision combines the step-stop flag, the run-to-position hit, and
the breakpoint processing of `processBp`, and a positive decision runs
`firePrompt`. -/
def doBreakpoint (w : World) (st : DebuggerState)
    (bp : Option BreakpointInfo) (isStepStop : Bool) (env : Option Nat)
    (cur : Option Nat) : DebuggerState :=
  if ¬ st.isEnabled ∨ st.interruptsPending then st
  else if st.currentCommand = DebuggerCommand.STOP then
    { setCommand w st DebuggerCommand.CONTINUE with interruptsPending := true }
  else
    let p := processBp w st bp env (isStepStop || rtpHit st cur)
    if p.2 then firePrompt w p.1 else p.1

/-- A compound body as the interceptor sees it (`doBegin`): the srcref of the
block's first statement (`getSrcref(srcrefs, 0)`) and the srcrefs of the
subsequent statements (`getSrcref(srcrefs, i)` for the entries of `args`). -/
structure Block where
  entrySrcref : Option Nat
  stmtSrcrefs : List (Option Nat)
deriving DecidableEq, Repr

/-- The per-statement decision record of the `doBegin` loop: the command
current at decision time, the computed `stopHere`, and the statement's
`RDEBUG` bit. -/
structure Decision where
  cmd : DebuggerCommand
  stopHere : Bool
  rdebugFlag : Bool
deriving DecidableEq, Repr

/-- The `stopHere` switch of the `doBegin` loop (lines 272-293). -/
def stmtStopHere (st : DebuggerState) (isPhysical : Bool)
    (functionEnv : Option Nat) : Bool :=
  match st.currentCommand with
  | DebuggerCommand.STEP_INTO => isPhysical
  | DebuggerCommand.FORCE_STEP_INTO => true
  | DebuggerCommand.PAUSE => true
  | DebuggerCommand.STOP => true
  | DebuggerCommand.STEP_OVER =>
    match functionEnv with
    | some e => e ∈ st.stopHereFlags
    | none => false
  | DebuggerCommand.STEP_OUT =>
    match functionEnv with
    | some e => e ∈ st.stopHereFlags
    | none => false
  | DebuggerCommand.CONTINUE => false

/-- The statement loop of `RDebugger::doBegin` (lines 267-304): for each
statement, compute `stopHere` from the current command, read the statement
srcref's `RDEBUG` bit, and fire `doBreakpoint` when either holds (passing
the attached breakpoint only when the bit is set).  Statement evaluation
itself is outside the debugger state.  Returns the final state and the
decision trace. -/
def doBeginLoop (w : World) (st : DebuggerState) (isPhysical : Bool)
    (functionEnv : Option Nat) (rho : Option Nat) :
    List (Option Nat) → DebuggerState × List Decision
  | [] => (st, [])
  | s :: rest =>
    let stopHere := stmtStopHere st isPhysical functionEnv
    let rdebugFlag := rdebugOf st s
    let d : Decision :=
      { cmd := st.currentCommand, stopHere := stopHere,
        rdebugFlag := rdebugFlag }
    let st1 :=
      if stopHere || rdebugFlag then
        doBreakpoint w st (if rdebugFlag then attribInfoOf st s else none)
          stopHere rho s
      else st
    let res := doBeginLoop w st1 isPhysical functionEnv rho rest
    (res.1, d :: res.2)

/-- `RDebugger::doBegin` (lines 245-306): find the innermost call context's
environment, compute the block's physicality from the first statement's
srcref, fire the entry-statement breakpoint when its `RDEBUG` bit is set,
then run the statement loop.  `rho` is the evaluation environment passed to
the begin primitive. -/
def doBegin (w : World) (st : DebuggerState) (block : Block)
    (rho : Option Nat) : DebuggerState × List Decision :=
  let functionEnv := (st.contexts.find? (·.isCall)).map (·.env)
  let isPhysical :=
    match block.entrySrcref with
    | some s => w.physical s
    | none => false
  let st1 :=
    if rdebugOf st block.entrySrcref then
      doBreakpoint w st (attribInfoOf st block.entrySrcref) false rho
        block.entrySrcref
    else st
  doBeginLoop w st1 isPhysical functionEnv rho block.stmtSrcrefs

/-- Physicality of a block as `doBegin` computes it. -/
def blockIsPhysical (w : World) (block : Block) : Bool :=
  match block.entrySrcref with
  | some s => w.physical s
  | none => false

/-- Environments of the call contexts of a chain, innermost first (the
frames whose stop-here markers `setCommand` updates). -/
def callEnvs (ctxs : List RCtx) : List Nat :=
  (ctxs.filter (·.isCall)).map (·.env)

/-! ## Field-preservation lemmas for the stateful operations -/

theorem refreshBreakpoint_isEnabled (w : World) (st : DebuggerState)
    (file : String) (line : Int) :
    (refreshBreakpoint w st file line).isEnabled = st.isEnabled := by
  unfold refreshBreakpoint; split <;> rfl

theorem refreshBreakpoint_currentCommand (w : World) (st : DebuggerState)
    (file : String) (line : Int) :
    (refreshBreakpoint w st file line).currentCommand = st.currentCommand := by
  unfold refreshBreakpoint; split <;> rfl

theorem refreshBreakpoint_breakpointsMuted (w : World) (st : DebuggerState)
    (file : String) (line : Int) :
    (refreshBreakpoint w st file line).breakpointsMuted =
      st.breakpointsMuted := by
  unfold refreshBreakpoint; split <;> rfl

theorem refreshBreakpoint_runToPositionTarget (w : World)
    (st : DebuggerState) (file : String) (line : Int) :
    (refreshBreakpoint w st file line).runToPositionTarget =
      st.runToPositionTarget := by
  unfold refreshBreakpoint; split <;> rfl

theorem refreshBreakpoint_contexts (w : World) (st : DebuggerState)
    (file : String) (line : Int) :
    (refreshBreakpoint w st file line).contexts = st.contexts := by
  unfold refreshBreakpoint; split <;> rfl

theorem refreshBreakpoint_stopHereFlags (w : World) (st : DebuggerState)
    (file : String) (line : Int) :
    (refreshBreakpoint w st file line).stopHereFlags = st.stopHereFlags := by
  unfold refreshBreakpoint; split <;> rfl

theorem refreshBreakpoint_interruptsPending (w : World) (st : DebuggerState)
    (file : String) (line : Int) :
    (refreshBreakpoint w st file line).interruptsPending =
      st.interruptsPending := by
  unfold refreshBreakpoint; split <;> rfl

theorem refreshBreakpoint_hostCommands (w : World) (st : DebuggerState)
    (file : String) (line : Int) :
    (refreshBreakpoint w st file line).hostCommands = st.hostCommands := by
  unfold refreshBreakpoint; split <;> rfl

theorem refreshBreakpoint_condChecks (w : World) (st : DebuggerState)
    (file : String) (line : Int) :
    (refreshBreakpoint w st file line).condChecks = st.condChecks := by
  unfold refreshBreakpoint; split <;> rfl

theorem refreshBreakpoint_logChecks (w : World) (st : DebuggerState)
    (file : String) (line : Int) :
    (refreshBreakpoint w st file line).logChecks = st.logChecks := by
  unfold refreshBreakpoint; split <;> rfl

theorem refreshBreakpoint_suspensions (w : World) (st : DebuggerState)
    (file : String) (line : Int) :
    (refreshBreakpoint w st file line).suspensions = st.suspensions := by
  unfold refreshBreakpoint; split <;> rfl

theorem resetRTP_runToPositionTarget (w : World) (st : DebuggerState) :
    (resetRunToPositionTarget w st).runToPositionTarget = none ∨
      resetRunToPositionTarget w st = st := by
  unfold resetRunToPositionTarget
  split
  · right; rfl
  · left; rfl

theorem resetRTP_of_none (w : World) (st : DebuggerState)
    (h : st.runToPositionTarget = none) :
    resetRunToPositionTarget w st = st := by
  unfold resetRunToPositionTarget
  split
  · rfl
  · rename_i t ht; rw [h] at ht; exact absurd ht (by simp)

theorem resetRTP_target_none (w : World) (st : DebuggerState) :
    (resetRunToPositionTarget w st).runToPositionTarget = none := by
  unfold resetRunToPositionTarget
  split
  · rename_i ht; exact ht
  · rfl

theorem resetRTP_isEnabled (w : World) (st : DebuggerState) :
    (resetRunToPositionTarget w st).isEnabled = st.isEnabled := by
  unfold resetRunToPositionTarget
  split
  · rfl
  · show (refreshBreakpoint _ _ _ _).isEnabled = _
    rw [refreshBreakpoint_isEnabled]

theorem resetRTP_currentCommand (w : World) (st : DebuggerState) :
    (resetRunToPositionTarget w st).currentCommand = st.currentCommand := by
  unfold resetRunToPositionTarget
  split
  · rfl
  · show (refreshBreakpoint _ _ _ _).currentCommand = _
    rw [refreshBreakpoint_currentCommand]

theorem resetRTP_breakpointsMuted (w : World) (st : DebuggerState) :
    (resetRunToPositionTarget w st).breakpointsMuted =
      st.breakpointsMuted := by
  unfold resetRunToPositionTarget
  split
  · rfl
  · show (refreshBreakpoint _ _ _ _).breakpointsMuted = _
    rw [refreshBreakpoint_breakpointsMuted]

theorem resetRTP_contexts (w : World) (st : DebuggerState) :
    (resetRunToPositionTarget w st).contexts = st.contexts := by
  unfold resetRunToPositionTarget
  split
  · rfl
  · show (refreshBreakpoint _ _ _ _).contexts = _
    rw [refreshBreakpoint_contexts]

theorem resetRTP_stopHereFlags (w : World) (st : DebuggerState) :
    (resetRunToPositionTarget w st).stopHereFlags = st.stopHereFlags := by
  unfold resetRunToPositionTarget
  split
  · rfl
  · show (refreshBreakpoint _ _ _ _).stopHereFlags = _
    rw [refreshBreakpoint_stopHereFlags]

theorem resetRTP_interruptsPending (w : World) (st : DebuggerState) :
    (resetRunToPositionTarget w st).interruptsPending =
      st.interruptsPending := by
  unfold resetRunToPositionTarget
  split
  · rfl
  · show (refreshBreakpoint _ _ _ _).interruptsPending = _
    rw [refreshBreakpoint_interruptsPending]

theorem resetRTP_hostCommands (w : World) (st : DebuggerState) :
    (resetRunToPositionTarget w st).hostCommands = st.hostCommands := by
  unfold resetRunToPositionTarget
  split
  · rfl
  · show (refreshBreakpoint _ _ _ _).hostCommands = _
    rw [refreshBreakpoint_hostCommands]

theorem resetRTP_condChecks (w : World) (st : DebuggerState) :
    (resetRunToPositionTarget w st).condChecks = st.condChecks := by
  unfold resetRunToPositionTarget
  split
  · rfl
  · show (refreshBreakpoint _ _ _ _).condChecks = _
    rw [refreshBreakpoint_condChecks]

theorem resetRTP_logChecks (w : World) (st : DebuggerState) :
    (resetRunToPositionTarget w st).logChecks = st.logChecks := by
  unfold resetRunToPositionTarget
  split
  · rfl
  · show (refreshBreakpoint _ _ _ _).logChecks = _
    rw [refreshBreakpoint_logChecks]

theorem resetRTP_suspensions (w : World) (st : DebuggerState) :
    (resetRunToPositionTarget w st).suspensions = st.suspensions := by
  unfold resetRunToPositionTarget
  split
  · rfl
  · show (refreshBreakpoint _ _ _ _).suspensions = _
    rw [refreshBreakpoint_suspensions]

theorem setCommand_currentCommand (w : World) (st : DebuggerState)
    (c : DebuggerCommand) : (setCommand w st c).currentCommand = c := by
  unfold setCommand
  show (resetRunToPositionTarget w _).currentCommand = c
  rw [resetRTP_currentCommand]

theorem setCommand_runToPositionTarget (w : World) (st : DebuggerState)
    (c : DebuggerCommand) :
    (setCommand w st c).runToPositionTarget = none := rfl

theorem setCommand_isEnabled (w : World) (st : DebuggerState)
    (c : DebuggerCommand) :
    (setCommand w st c).isEnabled = st.isEnabled := by
  unfold setCommand
  show (resetRunToPositionTarget w _).isEnabled = _
  rw [resetRTP_isEnabled]

theorem setCommand_breakpointsMuted (w : World) (st : DebuggerState)
    (c : DebuggerCommand) :
    (setCommand w st c).breakpointsMuted = st.breakpointsMuted := by
  unfold setCommand
  show (resetRunToPositionTarget w _).breakpointsMuted = _
  rw [resetRTP_breakpointsMuted]

theorem setCommand_contexts (w : World) (st : DebuggerState)
    (c : DebuggerCommand) :
    (setCommand w st c).contexts = st.contexts := by
  unfold setCommand
  show (resetRunToPositionTarget w _).contexts = _
  rw [resetRTP_contexts]

theorem setCommand_interruptsPending (w : World) (st : DebuggerState)
    (c : DebuggerCommand) :
    (setCommand w st c).interruptsPending = st.interruptsPending := by
  unfold setCommand
  show (resetRunToPositionTarget w _).interruptsPending = _
  rw [resetRTP_interruptsPending]

theorem setCommand_hostCommands (w : World) (st : DebuggerState)
    (c : DebuggerCommand) :
    (setCommand w st c).hostCommands = st.hostCommands := by
  unfold setCommand
  show (resetRunToPositionTarget w _).hostCommands = _
  rw [resetRTP_hostCommands]

theorem setCommand_condChecks (w : World) (st : DebuggerState)
    (c : DebuggerCommand) :
    (setCommand w st c).condChecks = st.condChecks := by
  unfold setCommand
  show (resetRunToPositionTarget w _).condChecks = _
  rw [resetRTP_condChecks]

theorem setCommand_logChecks (w : World) (st : DebuggerState)
    (c : DebuggerCommand) :
    (setCommand w st c).logChecks = st.logChecks := by
  unfold setCommand
  show (resetRunToPositionTarget w _).logChecks = _
  rw [resetRTP_logChecks]

theorem setCommand_suspensions (w : World) (st : DebuggerState)
    (c : DebuggerCommand) :
    (setCommand w st c).suspensions = st.suspensions := by
  unfold setCommand
  show (resetRunToPositionTarget w _).suspensions = _
  rw [resetRTP_suspensions]

theorem setCommand_stopHereFlags (w : World) (st : DebuggerState)
    (c : DebuggerCommand) :
    (setCommand w st c).stopHereFlags =
      walkSetFlags c st.contexts true st.stopHereFlags := by
  unfold setCommand
  show walkSetFlags c (resetRunToPositionTarget w _).contexts true
      (resetRunToPositionTarget w _).stopHereFlags = _
  rw [resetRTP_contexts, resetRTP_stopHereFlags]

theorem setCommand_rdebug_of_none (w : World) (st : DebuggerState)
    (c : DebuggerCommand) (h : st.runToPositionTarget = none) :
    (setCommand w st c).rdebug = st.rdebug := by
  unfold setCommand
  show (resetRunToPositionTarget w { st with currentCommand := c }).rdebug = _
  rw [resetRTP_of_none w { st with currentCommand := c } h]

theorem setCommand_breakpoints_of_none (w : World) (st : DebuggerState)
    (c : DebuggerCommand) (h : st.runToPositionTarget = none) :
    (setCommand w st c).breakpoints = st.breakpoints := by
  unfold setCommand
  show (resetRunToPositionTarget w { st with currentCommand := c }).breakpoints = _
  rw [resetRTP_of_none w { st with currentCommand := c } h]

theorem rtpHit_of_none (st : DebuggerState) (cur : Option Nat)
    (h : st.runToPositionTarget = none) : rtpHit st cur = false := by
  unfold rtpHit
  rw [h]
  cases cur <;> rfl

theorem processBp_none (w : World) (st : DebuggerState) (env : Option Nat)
    (s0 : Bool) : processBp w st none env s0 = (st, s0) := rfl

theorem processBp_muted (w : World) (st : DebuggerState)
    (bp : Option BreakpointInfo) (env : Option Nat) (s0 : Bool)
    (h : st.breakpointsMuted = true) :
    processBp w st bp env s0 = (st, s0) := by
  cases bp with
  | none => rfl
  | some info => simp [processBp, h]

theorem processBp_fst_suspensions (w : World) (st : DebuggerState)
    (bp : Option BreakpointInfo) (env : Option Nat) (s0 : Bool) :
    (processBp w st bp env s0).1.suspensions = st.suspensions := by
  cases bp with
  | none => rfl
  | some info =>
    simp only [processBp]
    split
    · rfl
    · split <;> rfl

theorem processBp_fst_runToPositionTarget (w : World) (st : DebuggerState)
    (bp : Option BreakpointInfo) (env : Option Nat) (s0 : Bool) :
    (processBp w st bp env s0).1.runToPositionTarget =
      st.runToPositionTarget := by
  cases bp with
  | none => rfl
  | some info =>
    simp only [processBp]
    split
    · rfl
    · split <;> rfl

theorem promptApply_suspensions (w : World) (st : DebuggerState) :
    (promptApply w st).suspensions = st.suspensions := by
  unfold promptApply
  split
  · rfl
  · rw [setCommand_suspensions]

theorem promptApply_runToPositionTarget (w : World) (st : DebuggerState)
    (h : st.runToPositionTarget = none) :
    (promptApply w st).runToPositionTarget = none := by
  unfold promptApply
  split
  · exact h
  · rw [setCommand_runToPositionTarget]

theorem promptApply_condChecks (w : World) (st : DebuggerState) :
    (promptApply w st).condChecks = st.condChecks := by
  unfold promptApply
  split
  · rfl
  · rw [setCommand_condChecks]

theorem promptApply_logChecks (w : World) (st : DebuggerState) :
    (promptApply w st).logChecks = st.logChecks := by
  unfold promptApply
  split
  · rfl
  · rw [setCommand_logChecks]

theorem promptApply_rdebug_of_none (w : World) (st : DebuggerState)
    (h : st.runToPositionTarget = none) :
    (promptApply w st).rdebug = st.rdebug := by
  unfold promptApply
  split
  · rfl
  · exact setCommand_rdebug_of_none w _ _ h

theorem firePrompt_suspensions (w : World) (st : DebuggerState) :
    (firePrompt w st).suspensions = st.suspensions + 1 := by
  unfold firePrompt
  rw [promptApply_suspensions]
  show (setCommand w st DebuggerCommand.CONTINUE).suspensions + 1 = _
  rw [setCommand_suspensions]

theorem firePrompt_runToPositionTarget (w : World) (st : DebuggerState) :
    (firePrompt w st).runToPositionTarget = none := by
  unfold firePrompt
  apply promptApply_runToPositionTarget
  show (setCommand w st DebuggerCommand.CONTINUE).runToPositionTarget = none
  rw [setCommand_runToPositionTarget]

theorem firePrompt_condChecks (w : World) (st : DebuggerState) :
    (firePrompt w st).condChecks = st.condChecks := by
  unfold firePrompt
  rw [promptApply_condChecks]
  show (setCommand w st DebuggerCommand.CONTINUE).condChecks = _
  rw [setCommand_condChecks]

theorem firePrompt_logChecks (w : World) (st : DebuggerState) :
    (firePrompt w st).logChecks = st.logChecks := by
  unfold firePrompt
  rw [promptApply_logChecks]
  show (setCommand w st DebuggerCommand.CONTINUE).logChecks = _
  rw [setCommand_logChecks]

theorem doBreakpoint_of_pending (w : World) (st : DebuggerState)
    (bp : Option BreakpointInfo) (isStepStop : Bool) (env cur : Option Nat)
    (h : st.interruptsPending = true) :
    doBreakpoint w st bp isStepStop env cur = st := by
  unfold doBreakpoint
  rw [if_pos (Or.inr (by rw [h]))]

theorem doBreakpoint_normal (w : World) (st : DebuggerState)
    (bp : Option BreakpointInfo) (isStepStop : Bool) (env cur : Option Nat)
    (h1 : st.isEnabled = true) (h2 : st.interruptsPending = false)
    (h3 : st.currentCommand ≠ DebuggerCommand.STOP) :
    doBreakpoint w st bp isStepStop env cur =
      (if (processBp w st bp env (isStepStop || rtpHit st cur)).2 then
         firePrompt w (processBp w st bp env (isStepStop || rtpHit st cur)).1
       else (processBp w st bp env (isStepStop || rtpHit st cur)).1) := by
  unfold doBreakpoint
  rw [if_neg, if_neg h3]
  intro hor
  rcases hor with hl | hr
  · exact hl h1
  · rw [h2] at hr; exact absurd hr (by simp)

theorem doBreakpoint_stop (w : World) (st : DebuggerState)
    (bp : Option BreakpointInfo) (isStepStop : Bool) (env cur : Option Nat)
    (h1 : st.isEnabled = true) (h2 : st.interruptsPending = false)
    (h3 : st.currentCommand = DebuggerCommand.STOP) :
    doBreakpoint w st bp isStepStop env cur =
      { setCommand w st DebuggerCommand.CONTINUE
        with interruptsPending := true } := by
  unfold doBreakpoint
  rw [if_neg, if_pos h3]
  intro hor
  rcases hor with hl | hr
  · exact hl h1
  · rw [h2] at hr; exact absurd hr (by simp)

theorem processBp_cond_false (w : World) (st : DebuggerState)
    (info : BreakpointInfo) (env : Option Nat) (s0 : Bool)
    (hm : st.breakpointsMuted = false)
    (hc : checkCondition w info.condition env = false) :
    processBp w st (some info) env s0 =
      ({ st with condChecks := st.condChecks + 1 }, s0) := by
  simp [processBp, hm, hc]

/-! ## Concrete worlds and states used by witnesses and examples -/

/-- A world in which nothing resolves, nothing is physical, and every
condition evaluation raises an error. -/
def w0 : World :=
  { resolve := fun _ _ => none
    srcPos := fun _ => ("", 0)
    physical := fun _ => false
    evalCond := fun _ _ => none }

/-- A world whose resolver maps `("a.r", 10)` to srcref `7` (with matching
reverse position), marks srcrefs `5` and `7` physical, and evaluates every
condition successfully to `true`. -/
def w1 : World :=
  { resolve := fun f l => if f = "a.r" ∧ l = 10 then some 7 else none
    srcPos := fun t => if t = 7 then ("a.r", 10) else ("", 0)
    physical := fun t => t = 5 ∨ t = 7
    evalCond := fun _ _ => some true }

/-- The enabled engine in its quiescent start configuration. -/
def st0 : DebuggerState :=
  { isEnabled := true
    currentCommand := DebuggerCommand.CONTINUE
    breakpointsMuted := false
    runToPositionTarget := none
    rdebug := []
    attrib := []
    breakpoints := []
    nextId := 0
    contexts := []
    stopHereFlags := []
    interruptsPending := false
    hostCommands := []
    resolveCount := 0
    condChecks := 0
    logChecks := 0
    suspensions := 0 }

/-! ## Claim theorems -/

/-- C5: breakpoint condition evaluation is total at the engine boundary:
an empty condition text evaluates to `true`; a condition whose parse or
evaluation raises an error (oracle result `none`) evaluates to `false`, and
a breakpoint with such a failing condition causes no suspension; a
successful evaluation yields exactly the evaluated Boolean, so no error ever
propagates out of `checkCondition`. -/
theorem claim_C5_condition_total (w : World) (cond : String)
    (env : Option Nat) :
    (cond = "" → checkCondition w cond env = true) ∧
    (cond ≠ "" → w.evalCond cond env = none →
      checkCondition w cond env = false) ∧
    (∀ b, cond ≠ "" → w.evalCond cond env = some b →
      checkCondition w cond env = b) ∧
    (∀ (st : DebuggerState) (info : BreakpointInfo) (cur : Option Nat),
      st.isEnabled = true → st.interruptsPending = false →
      st.currentCommand ≠ DebuggerCommand.STOP →
      st.breakpointsMuted = false → st.runToPositionTarget = none →
      info.condition = cond → cond ≠ "" → w.evalCond cond env = none →
      (doBreakpoint w st (some info) false env cur).suspensions =
        st.suspensions) := by
  refine ⟨?_, ?_, ?_, ?_⟩
  · intro h; simp [checkCondition, h]
  · intro h he; simp [checkCondition, h, he]
  · intro b h he; simp [checkCondition, h, he]
  · intro st info cur h1 h2 h3 h4 h5 hic h h6
    have hc : checkCondition w info.condition env = false := by
      rw [hic]; simp [checkCondition, h, h6]
    rw [doBreakpoint_normal w st (some info) false env cur h1 h2 h3]
    rw [processBp_cond_false w st info env _ h4 hc]
    rw [rtpHit_of_none st cur h5]
    simp

/-- Witness for C5: in the always-erroring world `w0`, the empty condition
checks true, a non-empty condition checks false, and a breakpoint with a
failing non-empty condition does not suspend the quiescent engine. -/
theorem claim_C5_condition_total_witness :
    checkCondition w0 "" none = true ∧
    checkCondition w0 "1/0 > 1" none = false ∧
    (doBreakpoint w0 st0
        (some { condition := "1/0 > 1", evaluateAndLog := "", suspend := true })
        false none none).suspensions = st0.suspensions := by
  refine ⟨(claim_C5_condition_total w0 "" none).1 rfl,
    (claim_C5_condition_total w0 "1/0 > 1" none).2.1 (by decide) rfl,
    (claim_C5_condition_total w0 "1/0 > 1" none).2.2.2 st0
      { condition := "1/0 > 1", evaluateAndLog := "", suspend := true } none
      rfl rfl (by decide) rfl rfl rfl (by decide) rfl⟩

/-- C6: with the engine enabled and no interrupt pending, observing `STOP`
as current command resets the command to `CONTINUE`, raises the
interpreter-level interrupt and does not invoke the blocking prompt (the
suspension count is unchanged); a `STOP` (or anything else) observed while
an interrupt is already pending leaves the state completely unchanged, so
the interrupt is not raised twice. -/
theorem claim_C6_stop_interrupt (w : World) (st : DebuggerState)
    (bp : Option BreakpointInfo) (isStepStop : Bool) (env cur : Option Nat) :
    (st.isEnabled = true → st.interruptsPending = false →
      st.currentCommand = DebuggerCommand.STOP →
      (doBreakpoint w st bp isStepStop env cur).currentCommand =
          DebuggerCommand.CONTINUE ∧
        (doBreakpoint w st bp isStepStop env cur).interruptsPending = true ∧
        (doBreakpoint w st bp isStepStop env cur).suspensions =
          st.suspensions) ∧
    (st.interruptsPending = true →
      doBreakpoint w st bp isStepStop env cur = st) := by
  constructor
  · intro h1 h2 h3
    rw [doBreakpoint_stop w st bp isStepStop env cur h1 h2 h3]
    refine ⟨?_, rfl, ?_⟩
    · show (setCommand w st DebuggerCommand.CONTINUE).currentCommand = _
      rw [setCommand_currentCommand]
    · show (setCommand w st DebuggerCommand.CONTINUE).suspensions = _
      rw [setCommand_suspensions]
  · intro h
    exact doBreakpoint_of_pending w st bp isStepStop env cur h

/-- Witness for C6: a concrete `STOP` state is normalized to `CONTINUE`
with an interrupt raised and no suspension, and a concrete pending-interrupt
state is left untouched. -/
theorem claim_C6_stop_interrupt_witness :
    ((doBreakpoint w0 { st0 with currentCommand := DebuggerCommand.STOP }
        none false none none).currentCommand = DebuggerCommand.CONTINUE ∧
      (doBreakpoint w0 { st0 with currentCommand := DebuggerCommand.STOP }
        none false none none).interruptsPending = true ∧
      (doBreakpoint w0 { st0 with currentCommand := DebuggerCommand.STOP }
        none false none none).suspensions =
        ({ st0 with currentCommand := DebuggerCommand.STOP} :
          DebuggerState).suspensions) ∧
    doBreakpoint w0 { st0 with interruptsPending := true } none false none
        none = { st0 with interruptsPending := true } := by
  constructor
  · exact (claim_C6_stop_interrupt w0
      { st0 with currentCommand := DebuggerCommand.STOP } none false none
      none).1 rfl rfl rfl
  · exact (claim_C6_stop_interrupt w0
      { st0 with interruptsPending := true } none false none none).2 rfl

/-- C4: while breakpoints are muted (and the firing logic actually runs:
engine enabled, no interrupt pending, current command not `STOP`), no
breakpoint condition is checked and no log expression is evaluated, for any
attached breakpoint whatsoever, and the suspension decision is exactly the
stepping-driven one (`isStepStop` or the run-to-position hit), so muting
never suppresses stepping-driven suspension and breakpoints never cause
suspension while muted. -/
theorem claim_C4_muted (w : World) (st : DebuggerState)
    (bp : Option BreakpointInfo) (isStepStop : Bool) (env cur : Option Nat)
    (hm : st.breakpointsMuted = true) (h1 : st.isEnabled = true)
    (h2 : st.interruptsPending = false)
    (h3 : st.currentCommand ≠ DebuggerCommand.STOP) :
    (doBreakpoint w st bp isStepStop env cur).condChecks = st.condChecks ∧
    (doBreakpoint w st bp isStepStop env cur).logChecks = st.logChecks ∧
    (doBreakpoint w st bp isStepStop env cur).suspensions =
      st.suspensions +
        (if isStepStop || rtpHit st cur then 1 else 0) := by
  rw [doBreakpoint_normal w st bp isStepStop env cur h1 h2 h3]
  rw [processBp_muted w st bp env _ hm]
  cases h : (isStepStop || rtpHit st cur) with
  | false => simp [h]
  | true =>
    simp only [h, if_pos]
    exact ⟨firePrompt_condChecks w st, firePrompt_logChecks w st,
      firePrompt_suspensions w st⟩

/-- Witness for C4: in a muted state, a breakpoint with `suspend := true`
and an empty (trivially-true) condition neither suspends nor evaluates its
condition or log when reached without a stepping stop, while a stepping stop
at the same muted state still suspends. -/
theorem claim_C4_muted_witness :
    ((doBreakpoint w1 { st0 with breakpointsMuted := true }
        (some { condition := "", evaluateAndLog := "log", suspend := true })
        false none none).condChecks = 0 ∧
      (doBreakpoint w1 { st0 with breakpointsMuted := true }
        (some { condition := "", evaluateAndLog := "log", suspend := true })
        false none none).logChecks = 0 ∧
      (doBreakpoint w1 { st0 with breakpointsMuted := true }
        (some { condition := "", evaluateAndLog := "log", suspend := true })
        false none none).suspensions = 0 + (if (false || rtpHit { st0 with breakpointsMuted := true } none) then 1 else 0)) ∧
    (doBreakpoint w1 { st0 with breakpointsMuted := true }
        (some { condition := "", evaluateAndLog := "log", suspend := true })
        true none none).suspensions = 0 + (if (true || rtpHit { st0 with breakpointsMuted := true } none) then 1 else 0) := by
  constructor
  · exact claim_C4_muted w1 { st0 with breakpointsMuted := true }
      (some { condition := "", evaluateAndLog := "log", suspend := true })
      false none none rfl rfl rfl (by decide)
  · exact (claim_C4_muted w1 { st0 with breakpointsMuted := true }
      (some { condition := "", evaluateAndLog := "log", suspend := true })
      true none none rfl rfl rfl (by decide)).2.2

/-- C7: `addBreakpoint` is idempotent on the key: adding the same
`(file, line)` a second time returns exactly the same state (so the store,
the armed and attached bits, and the resolver-call count are unchanged) and
the same `BreakpointInfo` identity as the first call. -/
theorem claim_C7_add_idempotent (w : World) (st : DebuggerState)
    (file : String) (line : Int) :
    (addBreakpoint w (addBreakpoint w st file line).1 file line).1 =
      (addBreakpoint w st file line).1 ∧
    (addBreakpoint w (addBreakpoint w st file line).1 file line).2 =
      (addBreakpoint w st file line).2 := by
  cases h : lookupBp st.breakpoints file line with
  | some e =>
    have h1 : addBreakpoint w st file line = (st, e.infoId) := by
      simp [addBreakpoint, h]
    rw [h1]
    rw [h1]
    simp [addBreakpoint, h]
  | none =>
    cases hr : w.resolve file line with
    | none =>
      have h1 : addBreakpoint w st file line =
          ({ st with
              breakpoints := ((file, line),
                ({ infoId := st.nextId, srcref := none,
                   info := { condition := "", evaluateAndLog := "",
                             suspend := false } } : BpEntry)) ::
                st.breakpoints
              nextId := st.nextId + 1
              resolveCount := st.resolveCount + 1 }, st.nextId) := by
        simp [addBreakpoint, h, hr]
      rw [h1]
      simp [addBreakpoint, lookupBp]
    | some t =>
      have h1 : addBreakpoint w st file line =
          ({ st with
              breakpoints := ((file, line),
                ({ infoId := st.nextId, srcref := some t,
                   info := { condition := "", evaluateAndLog := "",
                             suspend := false } } : BpEntry)) ::
                st.breakpoints
              nextId := st.nextId + 1
              resolveCount := st.resolveCount + 1
              rdebug := addFlag st.rdebug t
              attrib := setAttribTable st.attrib t (some st.nextId) },
            st.nextId) := by
        simp [addBreakpoint, h, hr]
      rw [h1]
      simp [addBreakpoint, lookupBp]

theorem mem_addFlag_self (l : List Nat) (e : Nat) : e ∈ addFlag l e := by
  unfold addFlag
  split
  · assumption
  · exact List.mem_cons_self e l

theorem not_mem_removeFlag_self (l : List Nat) (e : Nat) :
    e ∉ removeFlag l e := by
  simp [removeFlag, List.mem_filter]

theorem mem_removeFlag_iff (l : List Nat) (e s : Nat) :
    s ∈ removeFlag l e ↔ s ∈ l ∧ s ≠ e := by
  simp [removeFlag, List.mem_filter]

theorem mem_addFlag_iff (l : List Nat) (e s : Nat) :
    s ∈ addFlag l e ↔ s ∈ l ∨ s = e := by
  unfold addFlag
  split
  · rename_i h
    constructor
    · exact fun hs => Or.inl hs
    · rintro (hs | rfl)
      · exact hs
      · exact h
  · simp [List.mem_cons]
    tauto

theorem lookupBp_eraseBp (bps : List ((String × Int) × BpEntry))
    (file : String) (line : Int) :
    lookupBp (eraseBp bps file line) file line = none := by
  induction bps with
  | nil => rfl
  | cons p rest ih =>
    by_cases hk : p.1 = (file, line)
    · simpa [eraseBp, List.filter_cons, hk] using ih
    · simpa [eraseBp, List.filter_cons, hk, lookupBp] using ih

theorem lookupAttrib_detach_self (a : List (Nat × Nat)) (t : Nat) :
    lookupAttrib (setAttribTable a t none) t = none := by
  induction a with
  | nil => rfl
  | cons p rest ih =>
    by_cases hk : p.1 = t
    · simpa [setAttribTable, List.filter_cons, hk] using ih
    · simpa [setAttribTable, List.filter_cons, hk, lookupAttrib] using ih

theorem lookupAttrib_detach_other (a : List (Nat × Nat)) (t s : Nat)
    (h : s ≠ t) :
    lookupAttrib (setAttribTable a t none) s = lookupAttrib a s := by
  have h2 : t ≠ s := fun he => h he.symm
  induction a with
  | nil => rfl
  | cons p rest ih =>
    simp only [setAttribTable] at ih ⊢
    by_cases hk : p.1 = t
    · simpa [List.filter_cons, hk, lookupAttrib, h2] using ih
    · by_cases hs : p.1 = s
      · simp [List.filter_cons, hk, lookupAttrib, hs, h]
      · simpa [List.filter_cons, hk, lookupAttrib, hs] using ih

/-- C8: removing an existing breakpoint erases its entry (so a later lookup
at the key fails), and when its step target had been resolved, the target is
fully restored to the unarmed, unattached state: its `RDEBUG` bit is cleared
and its `breakpointInfoAttr` back-reference is gone, while every other
srcref's armed bit and attachment are untouched; when the target was never
resolved, the detach step is a no-op on the arming and attachment state.
The rest of the engine state (command, transient target, counters) is
unchanged. -/
theorem claim_C8_remove_restores (st : DebuggerState) (file : String)
    (line : Int) (e : BpEntry)
    (h : lookupBp st.breakpoints file line = some e) :
    lookupBp (removeBreakpoint st file line).breakpoints file line = none ∧
    (∀ t, e.srcref = some t →
      t ∉ (removeBreakpoint st file line).rdebug ∧
      lookupAttrib (removeBreakpoint st file line).attrib t = none ∧
      (∀ s, s ≠ t →
        ((s ∈ (removeBreakpoint st file line).rdebug) ↔ s ∈ st.rdebug) ∧
        lookupAttrib (removeBreakpoint st file line).attrib s =
          lookupAttrib st.attrib s)) ∧
    (e.srcref = none →
      (removeBreakpoint st file line).rdebug = st.rdebug ∧
      (removeBreakpoint st file line).attrib = st.attrib) ∧
    (removeBreakpoint st file line).breakpoints =
      eraseBp st.breakpoints file line ∧
    (removeBreakpoint st file line).runToPositionTarget =
      st.runToPositionTarget ∧
    (removeBreakpoint st file line).currentCommand = st.currentCommand ∧
    (removeBreakpoint st file line).suspensions = st.suspensions := by
  have hrw : removeBreakpoint st file line =
      { st with
        attrib :=
          match e.srcref with
          | none => st.attrib
          | some t => setAttribTable st.attrib t none
        rdebug :=
          match e.srcref with
          | none => st.rdebug
          | some t => removeFlag st.rdebug t
        breakpoints := eraseBp st.breakpoints file line } := by
    unfold removeBreakpoint
    rw [h]
  rw [hrw]
  refine ⟨lookupBp_eraseBp st.breakpoints file line, ?_, ?_, rfl, rfl, rfl, rfl⟩
  · intro t ht
    rw [ht]
    refine ⟨not_mem_removeFlag_self st.rdebug t,
      lookupAttrib_detach_self st.attrib t, ?_⟩
    intro s hs
    exact ⟨by rw [mem_removeFlag_iff]; exact ⟨fun hp => hp.1,
        fun hp => ⟨hp, hs⟩⟩,
      lookupAttrib_detach_other st.attrib t s hs⟩
  · intro ht
    rw [ht]
    exact ⟨rfl, rfl⟩

/-- A stored breakpoint entry used by witnesses: resolved to srcref `7`,
suspending, at `("a.r", 10)`. -/
def bpE : BpEntry :=
  { infoId := 0, srcref := some 7,
    info := { condition := "", evaluateAndLog := "", suspend := true } }

/-- An engine state holding the breakpoint `bpE` armed and attached. -/
def stBp : DebuggerState :=
  { st0 with
    breakpoints := [(("a.r", 10), bpE)]
    rdebug := [7]
    attrib := [(7, 0)]
    nextId := 1 }

/-- Witness for C8: removing the concrete breakpoint `bpE` erases the entry,
clears srcref `7`'s debug bit and detaches its back-reference. -/
theorem claim_C8_remove_restores_witness :
    lookupBp (removeBreakpoint stBp "a.r" 10).breakpoints "a.r" 10 = none ∧
    7 ∉ (removeBreakpoint stBp "a.r" 10).rdebug ∧
    lookupAttrib (removeBreakpoint stBp "a.r" 10).attrib 7 = none := by
  have h := claim_C8_remove_restores stBp "a.r" 10 bpE (by
    show lookupBp [(("a.r", 10), bpE)] "a.r" 10 = some bpE
    simp [lookupBp])
  exact ⟨h.1, (h.2.1 7 rfl).1, (h.2.1 7 rfl).2.1⟩

theorem doBreakpoint_of_disabled (w : World) (st : DebuggerState)
    (bp : Option BreakpointInfo) (isStepStop : Bool) (env cur : Option Nat)
    (h : st.isEnabled = false) :
    doBreakpoint w st bp isStepStop env cur = st := by
  unfold doBreakpoint
  rw [if_pos (Or.inl (by rw [h]; simp))]

theorem refreshBreakpoint_of_absent (w : World) (st : DebuggerState)
    (file : String) (line : Int)
    (h : lookupBp st.breakpoints file line = none) :
    refreshBreakpoint w st file line = st := by
  unfold refreshBreakpoint
  rw [h]

theorem setCommand_rdebug_of_some (w : World) (st : DebuggerState)
    (c : DebuggerCommand) (t : Nat) (h : st.runToPositionTarget = some t)
    (hb : lookupBp st.breakpoints (w.srcPos t).1 (w.srcPos t).2 = none) :
    (setCommand w st c).rdebug = removeFlag st.rdebug t := by
  obtain ⟨en, cc, bm, rtp, rd, att, bps, ni, cxs, shf, ip, hcs, rc, cch, lch,
    su⟩ := st
  dsimp only at h hb ⊢
  subst h
  unfold setCommand resetRunToPositionTarget
  dsimp only
  rw [refreshBreakpoint_of_absent _ _ _ _ hb]

theorem firePrompt_rdebug (w : World) (st : DebuggerState) :
    (firePrompt w st).rdebug =
      (setCommand w st DebuggerCommand.CONTINUE).rdebug := by
  unfold firePrompt
  rw [promptApply_rdebug_of_none]
  show (setCommand w st DebuggerCommand.CONTINUE).runToPositionTarget = none
  rw [setCommand_runToPositionTarget]

theorem doBreakpoint_no_suspend_of_target_none (w : World)
    (st : DebuggerState) (env cur : Option Nat)
    (h : st.runToPositionTarget = none) :
    (doBreakpoint w st none false env cur).suspensions = st.suspensions := by
  by_cases h1 : st.isEnabled = true
  · by_cases h2 : st.interruptsPending = false
    · by_cases h3 : st.currentCommand = DebuggerCommand.STOP
      · rw [doBreakpoint_stop w st none false env cur h1 h2 h3]
        show (setCommand w st DebuggerCommand.CONTINUE).suspensions = _
        rw [setCommand_suspensions]
      · rw [doBreakpoint_normal w st none false env cur h1 h2 h3]
        rw [processBp_none]
        simp [rtpHit_of_none st cur h]
    · rw [doBreakpoint_of_pending w st none false env cur
        (by cases hp : st.interruptsPending
            · exact absurd hp h2
            · rfl)]
  · rw [doBreakpoint_of_disabled w st none false env cur
      (by cases hp : st.isEnabled
          · rfl
          · exact absurd hp h1)]

theorem doBreakpoint_target_cleared_of_suspended (w : World)
    (st : DebuggerState) (bp : Option BreakpointInfo) (isStepStop : Bool)
    (env cur : Option Nat)
    (h : (doBreakpoint w st bp isStepStop env cur).suspensions ≠
      st.suspensions) :
    (doBreakpoint w st bp isStepStop env cur).runToPositionTarget = none := by
  by_cases h1 : st.isEnabled = true
  · by_cases h2 : st.interruptsPending = false
    · by_cases h3 : st.currentCommand = DebuggerCommand.STOP
      · rw [doBreakpoint_stop w st bp isStepStop env cur h1 h2 h3] at h
        exact absurd (setCommand_suspensions w st DebuggerCommand.CONTINUE) h
      · rw [doBreakpoint_normal w st bp isStepStop env cur h1 h2 h3] at h ⊢
        cases hp : (processBp w st bp env (isStepStop || rtpHit st cur)).2
        · rw [hp] at h
          rw [if_neg (by simp)] at h
          exact absurd (processBp_fst_suspensions w st bp env
            (isStepStop || rtpHit st cur)) h
        · rw [if_pos rfl]
          exact firePrompt_runToPositionTarget w _
    · rw [doBreakpoint_of_pending w st bp isStepStop env cur
        (by cases hq : st.interruptsPending
            · exact absurd hq h2
            · rfl)] at h
      exact absurd rfl h
  · rw [doBreakpoint_of_disabled w st bp isStepStop env cur
      (by cases hq : st.isEnabled
          · rfl
          · exact absurd hq h1)] at h
    exact absurd rfl h

/-- C2: arming a run-to-position target for a resolvable `(file, line)` and
then reaching that exact position suspends exactly once; at that first
suspension the transient target is cleared and its `RDEBUG` bit disarmed
(there being no breakpoint recorded at the position), so a second pass over
the same position after resume causes no further suspension; moreover any
suspension whatsoever, whether or not the target was the position hit,
leaves the transient target cleared. -/
theorem claim_C2_run_to_position_once (w : World) (st : DebuggerState)
    (file : String) (line : Int) (t : Nat) (env : Option Nat)
    (hres : w.resolve file line = some t)
    (hpos : w.srcPos t = (file, line))
    (hbp : lookupBp st.breakpoints file line = none)
    (h0 : st.runToPositionTarget = none)
    (hen : st.isEnabled = true)
    (hip : st.interruptsPending = false) :
    ((setRunToPositionCommand w st file line).runToPositionTarget = some t ∧
      t ∈ (setRunToPositionCommand w st file line).rdebug ∧
      (setRunToPositionCommand w st file line).currentCommand =
        DebuggerCommand.CONTINUE) ∧
    (doBreakpoint w (setRunToPositionCommand w st file line) none false env
        (some t)).suspensions = st.suspensions + 1 ∧
    (doBreakpoint w (setRunToPositionCommand w st file line) none false env
        (some t)).runToPositionTarget = none ∧
    t ∉ (doBreakpoint w (setRunToPositionCommand w st file line) none false
        env (some t)).rdebug ∧
    (doBreakpoint w
        (doBreakpoint w (setRunToPositionCommand w st file line) none false
          env (some t)) none false env (some t)).suspensions =
      (doBreakpoint w (setRunToPositionCommand w st file line) none false env
        (some t)).suspensions ∧
    (∀ (stepStop : Bool) (cur2 : Option Nat),
      (doBreakpoint w (setRunToPositionCommand w st file line) none stepStop
          env cur2).suspensions ≠
        (setRunToPositionCommand w st file line).suspensions →
      (doBreakpoint w (setRunToPositionCommand w st file line) none stepStop
          env cur2).runToPositionTarget = none) := by
  have hA : setRunToPositionCommand w st file line =
      { st with
        currentCommand := DebuggerCommand.CONTINUE
        resolveCount := st.resolveCount + 1
        runToPositionTarget := some t
        rdebug := addFlag st.rdebug t } := by
    unfold setRunToPositionCommand
    dsimp only
    rw [resetRTP_of_none w
      { st with currentCommand := DebuggerCommand.CONTINUE } h0]
    rw [hres]
  have hB : doBreakpoint w (setRunToPositionCommand w st file line) none
      false env (some t) =
      firePrompt w (setRunToPositionCommand w st file line) := by
    rw [doBreakpoint_normal w _ none false env (some t)
      (by rw [hA]; exact hen) (by rw [hA]; exact hip)
      (by rw [hA]; simp)]
    rw [processBp_none]
    have hhit : rtpHit (setRunToPositionCommand w st file line) (some t) =
        true := by
      rw [hA]; simp [rtpHit]
    simp [hhit]
  refine ⟨⟨by rw [hA], by rw [hA]; exact mem_addFlag_self st.rdebug t,
      by rw [hA]⟩, ?_, ?_, ?_, ?_, ?_⟩
  · rw [hB, firePrompt_suspensions, hA]
  · rw [hB]
    exact firePrompt_runToPositionTarget w _
  · rw [hB, firePrompt_rdebug]
    rw [setCommand_rdebug_of_some w _ DebuggerCommand.CONTINUE t
      (by rw [hA]) (by rw [hA, hpos]; exact hbp)]
    exact not_mem_removeFlag_self _ t
  · apply doBreakpoint_no_suspend_of_target_none
    rw [hB]
    exact firePrompt_runToPositionTarget w _
  · intro stepStop cur2 hne
    exact doBreakpoint_target_cleared_of_suspended w _ none stepStop env cur2
      hne

/-- Witness for C2: in the world `w1` (which resolves `("a.r", 10)` to
srcref `7`), the quiescent engine armed with a run-to-position target and
reaching srcref `7` suspends once, clears and disarms the target, and does
not re-suspend on a second pass. -/
theorem claim_C2_run_to_position_once_witness :
    ((setRunToPositionCommand w1 st0 "a.r" 10).runToPositionTarget = some 7 ∧
      7 ∈ (setRunToPositionCommand w1 st0 "a.r" 10).rdebug ∧
      (setRunToPositionCommand w1 st0 "a.r" 10).currentCommand =
        DebuggerCommand.CONTINUE) ∧
    (doBreakpoint w1 (setRunToPositionCommand w1 st0 "a.r" 10) none false
        none (some 7)).suspensions = st0.suspensions + 1 ∧
    (doBreakpoint w1 (setRunToPositionCommand w1 st0 "a.r" 10) none false
        none (some 7)).runToPositionTarget = none ∧
    7 ∉ (doBreakpoint w1 (setRunToPositionCommand w1 st0 "a.r" 10) none false
        none (some 7)).rdebug ∧
    (doBreakpoint w1
        (doBreakpoint w1 (setRunToPositionCommand w1 st0 "a.r" 10) none false
          none (some 7)) none false none (some 7)).suspensions =
      (doBreakpoint w1 (setRunToPositionCommand w1 st0 "a.r" 10) none false
        none (some 7)).suspensions := by
  have h := claim_C2_run_to_position_once w1 st0 "a.r" 10 7 none
    (by decide) (by decide) rfl rfl rfl rfl
  exact ⟨h.1, h.2.1, h.2.2.1, h.2.2.2.1, h.2.2.2.2.1⟩

/-! ## Lemmas about the `setCommand` marker walk -/

theorem callEnvs_cons_true (ctx : RCtx) (rest : List RCtx)
    (h : ctx.isCall = true) :
    callEnvs (ctx :: rest) = ctx.env :: callEnvs rest := by
  simp [callEnvs, List.filter_cons, h]

theorem callEnvs_cons_false (ctx : RCtx) (rest : List RCtx)
    (h : ctx.isCall = false) :
    callEnvs (ctx :: rest) = callEnvs rest := by
  simp [callEnvs, List.filter_cons, h]

theorem walk_notMem_of_remove (c : DebuggerCommand)
    (hop : ∀ (b : Bool) (f : List Nat) (env : Nat),
      stopFlagOp c b f env = removeFlag f env) :
    ∀ (ctxs : List RCtx) (isFirst : Bool) (flags : List Nat) (e : Nat),
      e ∉ flags → e ∉ walkSetFlags c ctxs isFirst flags := by
  intro ctxs
  induction ctxs with
  | nil => intro _ _ e he; simpa [walkSetFlags] using he
  | cons ctx rest ih =>
    intro isFirst flags e he
    cases hc : ctx.isCall
    · simp only [walkSetFlags, hc, Bool.false_eq_true, if_false]
      exact ih isFirst flags e he
    · simp only [walkSetFlags, hc, if_true]
      refine ih false _ e ?_
      rw [hop]
      intro hmem
      exact he ((mem_removeFlag_iff flags ctx.env e).1 hmem).1

theorem walk_clears_of_remove (c : DebuggerCommand)
    (hop : ∀ (b : Bool) (f : List Nat) (env : Nat),
      stopFlagOp c b f env = removeFlag f env) :
    ∀ (ctxs : List RCtx) (isFirst : Bool) (flags : List Nat) (e : Nat),
      e ∈ callEnvs ctxs → e ∉ walkSetFlags c ctxs isFirst flags := by
  intro ctxs
  induction ctxs with
  | nil => intro _ _ e he; simp [callEnvs] at he
  | cons ctx rest ih =>
    intro isFirst flags e he
    cases hc : ctx.isCall
    · simp only [walkSetFlags, hc, Bool.false_eq_true, if_false]
      refine ih isFirst flags e ?_
      simpa [callEnvs, List.filter_cons, hc] using he
    · simp only [walkSetFlags, hc, if_true]
      have he' : e = ctx.env ∨ e ∈ callEnvs rest := by
        have h2 : e ∈ ctx.env :: callEnvs rest := by
          simpa [callEnvs, List.filter_cons, hc] using he
        simpa using h2
      rcases he' with rfl | he'
      · refine walk_notMem_of_remove c hop rest false _ ctx.env ?_
        rw [hop]
        exact not_mem_removeFlag_self flags ctx.env
      · exact ih false _ e he'

theorem walk_pres_of_add (c : DebuggerCommand)
    (hop : ∀ (b : Bool) (f : List Nat) (env : Nat),
      stopFlagOp c b f env = addFlag f env) :
    ∀ (ctxs : List RCtx) (isFirst : Bool) (flags : List Nat) (e : Nat),
      e ∈ flags → e ∈ walkSetFlags c ctxs isFirst flags := by
  intro ctxs
  induction ctxs with
  | nil => intro _ _ e he; simpa [walkSetFlags] using he
  | cons ctx rest ih =>
    intro isFirst flags e he
    cases hc : ctx.isCall
    · simp only [walkSetFlags, hc, Bool.false_eq_true, if_false]
      exact ih isFirst flags e he
    · simp only [walkSetFlags, hc, if_true]
      refine ih false _ e ?_
      rw [hop]
      exact (mem_addFlag_iff flags ctx.env e).2 (Or.inl he)

theorem walk_sets_of_add (c : DebuggerCommand)
    (hop : ∀ (b : Bool) (f : List Nat) (env : Nat),
      stopFlagOp c b f env = addFlag f env) :
    ∀ (ctxs : List RCtx) (isFirst : Bool) (flags : List Nat) (e : Nat),
      e ∈ callEnvs ctxs → e ∈ walkSetFlags c ctxs isFirst flags := by
  intro ctxs
  induction ctxs with
  | nil => intro _ _ e he; simp [callEnvs] at he
  | cons ctx rest ih =>
    intro isFirst flags e he
    cases hc : ctx.isCall
    · simp only [walkSetFlags, hc, Bool.false_eq_true, if_false]
      refine ih isFirst flags e ?_
      simpa [callEnvs, List.filter_cons, hc] using he
    · simp only [walkSetFlags, hc, if_true]
      have he' : e = ctx.env ∨ e ∈ callEnvs rest := by
        have h2 : e ∈ ctx.env :: callEnvs rest := by
          simpa [callEnvs, List.filter_cons, hc] using he
        simpa using h2
      rcases he' with rfl | he'
      · refine walk_pres_of_add c hop rest false _ ctx.env ?_
        rw [hop]
        exact mem_addFlag_self flags ctx.env
      · exact ih false _ e he'

theorem walk_false_pres_out :
    ∀ (ctxs : List RCtx) (flags : List Nat) (e : Nat), e ∈ flags →
      e ∈ walkSetFlags DebuggerCommand.STEP_OUT ctxs false flags := by
  intro ctxs
  induction ctxs with
  | nil => intro flags e he; simpa [walkSetFlags] using he
  | cons ctx rest ih =>
    intro flags e he
    cases hc : ctx.isCall
    · simp only [walkSetFlags, hc, Bool.false_eq_true, if_false]
      exact ih flags e he
    · simp only [walkSetFlags, hc, if_true]
      refine ih _ e ?_
      show e ∈ addFlag flags ctx.env
      exact (mem_addFlag_iff flags ctx.env e).2 (Or.inl he)

theorem walk_false_sets_out :
    ∀ (ctxs : List RCtx) (flags : List Nat) (e : Nat), e ∈ callEnvs ctxs →
      e ∈ walkSetFlags DebuggerCommand.STEP_OUT ctxs false flags := by
  intro ctxs
  induction ctxs with
  | nil => intro flags e he; simp [callEnvs] at he
  | cons ctx rest ih =>
    intro flags e he
    cases hc : ctx.isCall
    · simp only [walkSetFlags, hc, Bool.false_eq_true, if_false]
      refine ih flags e ?_
      simpa [callEnvs, List.filter_cons, hc] using he
    · simp only [walkSetFlags, hc, if_true]
      have he' : e = ctx.env ∨ e ∈ callEnvs rest := by
        have h2 : e ∈ ctx.env :: callEnvs rest := by
          simpa [callEnvs, List.filter_cons, hc] using he
        simpa using h2
      rcases he' with rfl | he'
      · refine walk_false_pres_out rest _ ctx.env ?_
        show ctx.env ∈ addFlag flags ctx.env
        exact mem_addFlag_self flags ctx.env
      · exact ih _ e he'

theorem walk_false_notMem_out :
    ∀ (ctxs : List RCtx) (flags : List Nat) (e : Nat), e ∉ flags →
      e ∉ callEnvs ctxs →
      e ∉ walkSetFlags DebuggerCommand.STEP_OUT ctxs false flags := by
  intro ctxs
  induction ctxs with
  | nil => intro flags e he _; simpa [walkSetFlags] using he
  | cons ctx rest ih =>
    intro flags e he hce
    cases hc : ctx.isCall
    · simp only [walkSetFlags, hc, Bool.false_eq_true, if_false]
      refine ih flags e he ?_
      intro h2
      rw [callEnvs_cons_false ctx rest hc] at hce
      exact hce h2
    · simp only [walkSetFlags, hc, if_true]
      rw [callEnvs_cons_true ctx rest hc] at hce
      have hne : e ≠ ctx.env := fun h2 => hce (by rw [h2]; exact List.mem_cons_self _ _)
      refine ih _ e ?_ ?_
      · show e ∉ addFlag flags ctx.env
        rw [mem_addFlag_iff]
        rintro (h2 | h2)
        · exact he h2
        · exact hne h2
      · intro h2
        exact hce (List.mem_cons_of_mem _ h2)

theorem walk_id_of_skip (c : DebuggerCommand)
    (hop : ∀ (b : Bool) (f : List Nat) (env : Nat),
      stopFlagOp c b f env = f) :
    ∀ (ctxs : List RCtx) (isFirst : Bool) (flags : List Nat),
      walkSetFlags c ctxs isFirst flags = flags := by
  intro ctxs
  induction ctxs with
  | nil => intro _ _; rfl
  | cons ctx rest ih =>
    intro isFirst flags
    cases hc : ctx.isCall
    · simp only [walkSetFlags, hc, Bool.false_eq_true, if_false]
      exact ih isFirst flags
    · simp only [walkSetFlags, hc, if_true, hop]
      exact ih false flags

theorem walk_stepout_first :
    ∀ (ctxs : List RCtx) (flags : List Nat) (e0 : Nat) (rest : List Nat),
      callEnvs ctxs = e0 :: rest → (e0 :: rest).Nodup →
      e0 ∉ walkSetFlags DebuggerCommand.STEP_OUT ctxs true flags ∧
      ∀ e ∈ rest, e ∈ walkSetFlags DebuggerCommand.STEP_OUT ctxs true flags := by
  intro ctxs
  induction ctxs with
  | nil => intro flags e0 rest h _; simp [callEnvs] at h
  | cons ctx rest' ih =>
    intro flags e0 rest h hnd
    cases hc : ctx.isCall
    · have h' : callEnvs rest' = e0 :: rest := by
        simpa [callEnvs, List.filter_cons, hc] using h
      simp only [walkSetFlags, hc, Bool.false_eq_true, if_false]
      exact ih flags e0 rest h' hnd
    · have h2 : ctx.env :: callEnvs rest' = e0 :: rest := by
        simpa [callEnvs, List.filter_cons, hc] using h
      have henv : ctx.env = e0 := (List.cons.inj h2).1
      have htail : callEnvs rest' = rest := (List.cons.inj h2).2
      simp only [walkSetFlags, hc, if_true]
      have hop1 : stopFlagOp DebuggerCommand.STEP_OUT true flags ctx.env =
          removeFlag flags ctx.env := rfl
      rw [hop1, henv]
      constructor
      · refine walk_false_notMem_out rest' _ e0 ?_ ?_
        · exact not_mem_removeFlag_self flags e0
        · rw [htail]
          exact (List.nodup_cons.1 hnd).1
      · intro e he
        refine walk_false_sets_out rest' _ e ?_
        rw [htail]
        exact he

/-- C3: after `setCommand c` the recorded current command is exactly `c`,
and the stop-here markers on the live call frames are as the command
dictates: cleared everywhere for `CONTINUE` and `STEP_INTO`, set everywhere
for `STEP_OVER`, cleared on the innermost call frame and set on every
enclosing call frame for `STEP_OUT` (assuming the call frames' environments
are pairwise distinct, as they are in a live context chain), and untouched
for every other command. -/
theorem claim_C3_set_command_markers (w : World) (st : DebuggerState)
    (c : DebuggerCommand) :
    (setCommand w st c).currentCommand = c ∧
    ((c = DebuggerCommand.CONTINUE ∨ c = DebuggerCommand.STEP_INTO) →
      ∀ e ∈ callEnvs st.contexts, e ∉ (setCommand w st c).stopHereFlags) ∧
    (c = DebuggerCommand.STEP_OVER →
      ∀ e ∈ callEnvs st.contexts, e ∈ (setCommand w st c).stopHereFlags) ∧
    (c = DebuggerCommand.STEP_OUT →
      ∀ (e0 : Nat) (rest : List Nat), callEnvs st.contexts = e0 :: rest →
        (e0 :: rest).Nodup →
        e0 ∉ (setCommand w st c).stopHereFlags ∧
        ∀ e ∈ rest, e ∈ (setCommand w st c).stopHereFlags) ∧
    ((c = DebuggerCommand.FORCE_STEP_INTO ∨ c = DebuggerCommand.PAUSE ∨
        c = DebuggerCommand.STOP) →
      (setCommand w st c).stopHereFlags = st.stopHereFlags) := by
  refine ⟨setCommand_currentCommand w st c, ?_, ?_, ?_, ?_⟩
  · intro hc e he
    rw [setCommand_stopHereFlags]
    rcases hc with rfl | rfl
    · exact walk_clears_of_remove DebuggerCommand.CONTINUE
        (fun _ _ _ => rfl) st.contexts true st.stopHereFlags e he
    · exact walk_clears_of_remove DebuggerCommand.STEP_INTO
        (fun _ _ _ => rfl) st.contexts true st.stopHereFlags e he
  · rintro rfl e he
    rw [setCommand_stopHereFlags]
    exact walk_sets_of_add DebuggerCommand.STEP_OVER (fun _ _ _ => rfl)
      st.contexts true st.stopHereFlags e he
  · rintro rfl e0 rest h hnd
    rw [setCommand_stopHereFlags]
    exact walk_stepout_first st.contexts st.stopHereFlags e0 rest h hnd
  · intro hc
    rw [setCommand_stopHereFlags]
    rcases hc with rfl | rfl | rfl
    · exact walk_id_of_skip DebuggerCommand.FORCE_STEP_INTO
        (fun _ _ _ => rfl) st.contexts true st.stopHereFlags
    · exact walk_id_of_skip DebuggerCommand.PAUSE (fun _ _ _ => rfl)
        st.contexts true st.stopHereFlags
    · exact walk_id_of_skip DebuggerCommand.STOP (fun _ _ _ => rfl)
        st.contexts true st.stopHereFlags

/-- An engine state with a live chain of three call contexts (environments
1, 2, 4, innermost first) and one non-call context. -/
def stC3 : DebuggerState :=
  { st0 with
    contexts := [{ isCall := true, env := 1 }, { isCall := true, env := 2 },
      { isCall := false, env := 3 }, { isCall := true, env := 4 }] }

/-- Witness for C3: on the concrete three-call-frame chain, `STEP_OUT`
clears the innermost frame's marker and sets the two enclosing ones, and
`PAUSE` leaves the markers untouched. -/
theorem claim_C3_set_command_markers_witness :
    (setCommand w0 stC3 DebuggerCommand.STEP_OUT).currentCommand =
      DebuggerCommand.STEP_OUT ∧
    1 ∉ (setCommand w0 stC3 DebuggerCommand.STEP_OUT).stopHereFlags ∧
    2 ∈ (setCommand w0 stC3 DebuggerCommand.STEP_OUT).stopHereFlags ∧
    4 ∈ (setCommand w0 stC3 DebuggerCommand.STEP_OUT).stopHereFlags ∧
    (setCommand w0 stC3 DebuggerCommand.PAUSE).stopHereFlags =
      stC3.stopHereFlags := by
  have h := claim_C3_set_command_markers w0 stC3 DebuggerCommand.STEP_OUT
  have hp := claim_C3_set_command_markers w0 stC3 DebuggerCommand.PAUSE
  have hout := h.2.2.2.1 rfl 1 [2, 4] (by decide) (by decide)
  exact ⟨h.1, hout.1, hout.2 2 (by decide), hout.2 4 (by decide),
    hp.2.2.2.2 (Or.inr (Or.inl rfl))⟩

/-! ## Lemmas about the `doBegin` statement loop -/

theorem doBeginLoop_decisions (w : World) :
    ∀ (stmts : List (Option Nat)) (st : DebuggerState) (phys : Bool)
      (fenv rho : Option Nat),
      ∀ d ∈ (doBeginLoop w st phys fenv rho stmts).2,
        (d.cmd = DebuggerCommand.STEP_INTO → d.stopHere = phys) ∧
        ((d.cmd = DebuggerCommand.FORCE_STEP_INTO ∨
            d.cmd = DebuggerCommand.PAUSE) → d.stopHere = true) := by
  intro stmts
  induction stmts with
  | nil => intro st phys fenv rho d hd; simp [doBeginLoop] at hd
  | cons s rest ih =>
    intro st phys fenv rho d hd
    simp only [doBeginLoop] at hd
    rcases List.mem_cons.1 hd with rfl | hd'
    · constructor
      · intro hcmd
        show stmtStopHere st phys fenv = phys
        unfold stmtStopHere
        rw [show st.currentCommand = DebuggerCommand.STEP_INTO from hcmd]
      · intro hcmd
        show stmtStopHere st phys fenv = true
        unfold stmtStopHere
        rcases hcmd with hcmd | hcmd
        · rw [show st.currentCommand = DebuggerCommand.FORCE_STEP_INTO
            from hcmd]
        · rw [show st.currentCommand = DebuggerCommand.PAUSE from hcmd]
    · exact ih _ phys fenv rho d hd'

theorem doBeginLoop_step_into_nonphysical (w : World) :
    ∀ (stmts : List (Option Nat)) (st : DebuggerState) (phys : Bool)
      (fenv rho : Option Nat),
      st.currentCommand = DebuggerCommand.STEP_INTO → phys = false →
      (∀ s ∈ stmts, rdebugOf st s = false) →
      (doBeginLoop w st phys fenv rho stmts).1 = st ∧
      ∀ d ∈ (doBeginLoop w st phys fenv rho stmts).2,
        d.stopHere = false ∧ d.rdebugFlag = false := by
  intro stmts
  induction stmts with
  | nil =>
    intro st phys fenv rho _ _ _
    exact ⟨rfl, by intro d hd; simp [doBeginLoop] at hd⟩
  | cons s rest ih =>
    intro st phys fenv rho hcmd hph hrd
    subst hph
    have hstop : stmtStopHere st false fenv = false := by
      unfold stmtStopHere
      rw [hcmd]
    have hflag : rdebugOf st s = false := hrd s (List.mem_cons_self s rest)
    have hnof : (stmtStopHere st false fenv || rdebugOf st s) = false := by
      rw [hstop, hflag]; rfl
    have hst1 :
        (if (stmtStopHere st false fenv || rdebugOf st s) = true then
          doBreakpoint w st
            (if rdebugOf st s = true then attribInfoOf st s else none)
            (stmtStopHere st false fenv) rho s
         else st) = st := by
      rw [if_neg (by rw [hnof]; simp)]
    have ihr := ih st false fenv rho hcmd rfl
      (fun s2 hs2 => hrd s2 (List.mem_cons_of_mem s hs2))
    constructor
    · show (doBeginLoop w _ false fenv rho rest).1 = st
      rw [hst1]
      exact ihr.1
    · intro d hd
      simp only [doBeginLoop] at hd
      rcases List.mem_cons.1 hd with rfl | hd'
      · exact ⟨hstop, hflag⟩
      · rw [hst1] at hd'
        exact ihr.2 d hd'

/-- C10: in the interceptor's per-statement loop, whenever the command
current at decision time is `STEP_INTO` the computed `stopHere` equals the
block's physicality (determined once, from the first statement's srcref's
srcfile), and whenever it is `FORCE_STEP_INTO` or `PAUSE` the computed
`stopHere` is `true` regardless of physicality; consequently a plain
step-into through a non-physical block with no armed statements fires
nothing and leaves the engine state untouched. -/
theorem claim_C10_step_into_physicality (w : World) (st : DebuggerState)
    (block : Block) (rho : Option Nat) :
    (∀ d ∈ (doBegin w st block rho).2,
      (d.cmd = DebuggerCommand.STEP_INTO →
        d.stopHere = blockIsPhysical w block) ∧
      ((d.cmd = DebuggerCommand.FORCE_STEP_INTO ∨
          d.cmd = DebuggerCommand.PAUSE) → d.stopHere = true)) ∧
    (st.currentCommand = DebuggerCommand.STEP_INTO →
      blockIsPhysical w block = false →
      rdebugOf st block.entrySrcref = false →
      (∀ s ∈ block.stmtSrcrefs, rdebugOf st s = false) →
      (doBegin w st block rho).1 = st ∧
      ∀ d ∈ (doBegin w st block rho).2,
        d.stopHere = false ∧ d.rdebugFlag = false) := by
  constructor
  · intro d hd
    unfold doBegin at hd
    exact doBeginLoop_decisions w block.stmtSrcrefs _ _ _ rho d hd
  · intro hcmd hph hentry hstmts
    unfold doBegin
    rw [if_neg (by rw [hentry]; simp)]
    exact doBeginLoop_step_into_nonphysical w block.stmtSrcrefs st
      (blockIsPhysical w block) _ rho hcmd hph hstmts

/-- A three-statement block whose first statement's srcref is srcref 1. -/
def blockC10 : Block :=
  { entrySrcref := some 1, stmtSrcrefs := [some 2, some 3, none] }

/-- Witness for C10: stepping into the non-physical block `blockC10` (world
`w0` marks nothing physical) with no armed statements leaves the quiescent
engine state unchanged. -/
theorem claim_C10_step_into_physicality_witness :
    (doBegin w0 { st0 with currentCommand := DebuggerCommand.STEP_INTO }
        blockC10 none).1 =
      { st0 with currentCommand := DebuggerCommand.STEP_INTO } := by
  exact ((claim_C10_step_into_physicality w0
    { st0 with currentCommand := DebuggerCommand.STEP_INTO } blockC10
    none).2 rfl rfl rfl (by intro s hs; fin_cases hs <;> rfl)).1

/-! ## Lemmas about the stack builder -/

theorem buildStep_head_name (acc : BuildAcc) (ctx : ContextDump)
    (h : ∀ fr, acc.stack.head? = some fr → fr.functionName = "") :
    ∀ fr, (buildStep acc ctx).stack.head? = some fr →
      fr.functionName = "" := by
  intro fr hfr
  simp only [buildStep] at hfr
  by_cases hs : frameStackBottom acc.frame ∧ ctx.environment ≠ none
  · rw [if_pos hs] at hfr
    simp at hfr
  · rw [if_neg hs] at hfr
    by_cases he : ctx.call ≠ none ∧
        (acc.wasStackBottom ||
          isPhysicalSrcref (effectiveSrcref acc.functionSrcref ctx)) = true
    · rw [if_pos he] at hfr
      cases hstk : acc.stack with
      | nil =>
        rw [hstk] at hfr
        simp only [List.nil_append, List.head?_cons, Option.some.injEq] at hfr
        rw [← hfr]
        simp [hstk]
      | cons a as =>
        rw [hstk] at hfr
        simp only [List.cons_append, List.head?_cons,
          Option.some.injEq] at hfr
        rw [← hfr]
        exact h a (by rw [hstk]; rfl)
    · rw [if_neg he] at hfr
      exact h fr hfr

theorem buildStack_head_name (ctxs : List ContextDump) :
    ∀ fr, (buildStack ctxs).head? = some fr → fr.functionName = "" := by
  suffices h : ∀ (acc : BuildAcc),
      (∀ fr, acc.stack.head? = some fr → fr.functionName = "") →
      ∀ fr, (ctxs.foldl buildStep acc).stack.head? = some fr →
        fr.functionName = "" by
    exact h buildAccInit (by intro fr h2; simp [buildAccInit] at h2)
  induction ctxs with
  | nil => intro acc h fr; exact h fr
  | cons ctx rest ih =>
    intro acc h fr
    rw [List.foldl_cons]
    exact ih (buildStep acc ctx) (buildStep_head_name acc ctx h) fr

theorem buildStack_empty_of_no_phys :
    ∀ (ctxs : List ContextDump) (acc : BuildAcc),
      (∀ ctx ∈ ctxs, frameStackBottom ctx.environment = false) →
      (∀ s ∈ effList acc.functionSrcref ctxs, isPhysicalSrcref s = false) →
      frameStackBottom acc.frame = false →
      acc.wasStackBottom = false → acc.stack = [] →
      (ctxs.foldl buildStep acc).stack = [] := by
  intro ctxs
  induction ctxs with
  | nil => intro acc _ _ _ _ h5; simpa using h5
  | cons ctx rest ih =>
    intro acc h1 h2 h3 h4 h5
    rw [List.foldl_cons]
    have hsent : ¬ (frameStackBottom acc.frame ∧ ctx.environment ≠ none) := by
      rw [h3]
      rintro ⟨hff, -⟩
      exact absurd hff (by simp)
    have hphys :
        isPhysicalSrcref (effectiveSrcref acc.functionSrcref ctx) = false :=
      h2 _ (by rw [effList]; exact List.mem_cons_self _ _)
    have hwsb : (acc.wasStackBottom ||
        isPhysicalSrcref (effectiveSrcref acc.functionSrcref ctx)) = false := by
      rw [h4, hphys]
      rfl
    have hemit : ¬ (ctx.call ≠ none ∧
        (acc.wasStackBottom ||
          isPhysicalSrcref (effectiveSrcref acc.functionSrcref ctx)) = true) := by
      rw [hwsb]
      rintro ⟨-, hff⟩
      simp at hff
    have hstep : (buildStep acc ctx).stack = [] ∧
        (buildStep acc ctx).wasStackBottom = false := by
      simp only [buildStep]
      rw [if_neg hsent, if_neg hemit]
      exact ⟨h5, hwsb⟩
    refine ih (buildStep acc ctx) (fun c hc => h1 c (List.mem_cons_of_mem ctx hc))
      ?_ ?_ hstep.2 hstep.1
    · intro s hs
      refine h2 s ?_
      rw [effList]
      refine List.mem_cons_of_mem _ ?_
      have hfs : (buildStep acc ctx).functionSrcref =
          (match ctx.functionSrcref with
           | some fs => fs
           | none => acc.functionSrcref) := rfl
      rw [hfs] at hs
      exact hs
    · have hframe : (buildStep acc ctx).frame = ctx.environment := rfl
      rw [hframe]
      exact h1 ctx (List.mem_cons_self ctx rest)

/-! ## Concrete stack-builder scenarios -/

/-- Non-physical top-level (console) srcref. -/
def srcTop : Srcref := { file := "console", line := 1, physical := false }

/-- Physical srcref of the `g()` call site inside `f`. -/
def srcCallG : Srcref := { file := "a.R", line := 2, physical := true }

/-- Physical srcref of the `h()` call site inside `g`. -/
def srcCallH : Srcref := { file := "a.R", line := 10, physical := true }

/-- Physical srcref of the statement reached inside `h`. -/
def srcCur : Srcref := { file := "a.R", line := 20, physical := true }

/-- Physical srcref of `f`'s definition. -/
def srcFunF : Srcref := { file := "a.R", line := 1, physical := true }

/-- Physical srcref of `g`'s definition. -/
def srcFunG : Srcref := { file := "a.R", line := 8, physical := true }

/-- Physical srcref of `h`'s definition. -/
def srcFunH : Srcref := { file := "a.R", line := 9, physical := true }

/-- Evaluation environment of `f`. -/
def envF : REnv := { id := 1, stackBottom := false, realEnv := none }

/-- Evaluation environment of `g`. -/
def envG : REnv := { id := 2, stackBottom := false, realEnv := none }

/-- Evaluation environment of `h`. -/
def envH : REnv := { id := 3, stackBottom := false, realEnv := none }

/-- Evaluation environment of the error-raising `stop()` call. -/
def envStop : REnv := { id := 4, stackBottom := false, realEnv := none }

/-- The live chain at a suspension inside `h`, innermost first: the call
contexts of `h`, `g` and `f`; `f` was called from synthetic (console) code,
so the `f` context's srcref is not file-backed. -/
def chainC1 : List LiveCtx :=
  [ { isCall := true, call := some { name := "h", srcref := none },
      functionSrcref := some (some srcFunH), srcref := some srcCallH,
      environment := some envH },
    { isCall := true, call := some { name := "g", srcref := none },
      functionSrcref := some (some srcFunG), srcref := some srcCallG,
      environment := some envG },
    { isCall := true, call := some { name := "f", srcref := none },
      functionSrcref := some (some srcFunF), srcref := some srcTop,
      environment := some envF } ]

/-- The dump `getStack` builds from when suspended on a statement inside
`h`. -/
def dumpC1 : List ContextDump :=
  getContextDump chainC1 (some { name := "print", srcref := none })
    (some srcCur)

/-- The live chain at an unhandled failure raised by a `stop()` call three
physical frames deep (inside `h`), innermost first: the error-raising call's
context on top of the `h`, `g`, `f` contexts. -/
def chainC9 : List LiveCtx :=
  { isCall := true, call := some { name := "stop", srcref := none },
    functionSrcref := some none, srcref := some srcCur,
    environment := some envStop } :: chainC1

/-- The failure-time dump captured by `doHandleException`
(`getContextDump(R_NilValue)`: the initial entry has a nil call). -/
def dumpC9 : List ContextDump :=
  getContextDump chainC9 none (some srcCur)

/-- Non-physical srcref inside internally synthesized code, line `n`. -/
def srcInt (n : Int) : Srcref :=
  { file := "internal", line := n, physical := false }

/-- An environment carrying the stack-bottom sentinel attribute. -/
def envSent : REnv := { id := 10, stackBottom := true, realEnv := none }

/-- Plain internal environment, id 11. -/
def envInt1 : REnv := { id := 11, stackBottom := false, realEnv := none }

/-- Plain internal environment, id 12. -/
def envInt2 : REnv := { id := 12, stackBottom := false, realEnv := none }

/-- A dump with a stack-bottom sentinel and no physical srcref anywhere:
frame 1's environment carries the sentinel, frame 2 has a real environment
(triggering the rule-3 reset, which latches `wasStackBottom`), and frame 3
is then emitted although nothing in the dump is file-backed. -/
def cexC1 : List ContextDump :=
  [ { call := some { name := "a", srcref := none }, functionSrcref := none,
      srcref := some (srcInt 1), environment := some envSent },
    { call := some { name := "b", srcref := none }, functionSrcref := none,
      srcref := some (srcInt 2), environment := some envInt1 },
    { call := some { name := "c", srcref := none }, functionSrcref := none,
      srcref := some (srcInt 3), environment := some envInt2 } ]

/-- Counterexample to C1 as stated: on the sentinel dump `cexC1` the builder
returns a non-empty stack although no context has a physical effective
srcref, so the output is not restricted to frames at or after a first
physical (file-backed) frame. -/
theorem claim_C1_counterexample :
    buildStack cexC1 ≠ [] ∧
    (physAt cexC1).any (fun b => b) = false := by
  decide

/-- C1 (amended): the first emitted frame's `functionName` is always the
empty string; provided no context environment carries the stack-bottom
sentinel (whose rule-3 reset unconditionally latches emission), a dump in
which no context has a physical effective srcref produces an empty stack,
so frames are only emitted at or after the first physical frame; and the
concrete scenario — a synthetic top-level frame followed by the three
physical call frames `f() -> g() -> h()`, suspended inside `h` — yields
exactly the three frames of `f`, `g` and `h`, outermost first, with
call-site names attributed one position behind (`""`, then `"g"`, then
`"h"`). -/
theorem claim_C1_stack_shape :
    (∀ (ctxs : List ContextDump) (fr : RDebuggerStackFrame),
      (buildStack ctxs).head? = some fr → fr.functionName = "") ∧
    (∀ ctxs : List ContextDump, noSentinel ctxs = true →
      (physAt ctxs).any (fun b => b) = false → buildStack ctxs = []) ∧
    buildStack dumpC1 =
      [ { fileId := "a.R", line := 2, environment := some 1,
          functionName := "" },
        { fileId := "a.R", line := 10, environment := some 2,
          functionName := "g" },
        { fileId := "a.R", line := 20, environment := some 3,
          functionName := "h" } ] := by
  refine ⟨?_, ?_, by decide⟩
  · intro ctxs fr
    exact buildStack_head_name ctxs fr
  · intro ctxs hns hany
    apply buildStack_empty_of_no_phys ctxs buildAccInit
    · intro ctx hctx
      have h2 := (List.all_eq_true.1 hns) ctx hctx
      simpa using h2
    · intro s hs
      have hmem : isPhysicalSrcref s ∈ physAt ctxs :=
        List.mem_map_of_mem isPhysicalSrcref hs
      have h2 := (List.any_eq_false.1 hany) _ hmem
      simpa using h2
    · rfl
    · rfl
    · rfl

/-- A one-entry sentinel-free dump with a non-physical srcref. -/
def dumpW : List ContextDump :=
  [ { call := some { name := "a", srcref := none }, functionSrcref := none,
      srcref := some (srcInt 1), environment := none } ]

/-- Witness for C1 (amended): the sentinel-free all-non-physical dump
`dumpW` builds an empty stack. -/
theorem claim_C1_stack_shape_witness : buildStack dumpW = [] := by
  exact claim_C1_stack_shape.2.1 dumpW (by decide) (by decide)

/-- C9: the last-error stack applies the same builder to the failure-time
dump and drops the innermost emitted frame: on the concrete failure raised
three physical frames deep (inside `h`) it returns exactly the two
enclosing frames (`f`'s and `g`'s), after `resetLastErrorStack` it returns
the empty sequence, and in general it is the builder's output without its
last (innermost) frame. -/
theorem claim_C9_last_error_stack :
    getLastErrorStack dumpC9 =
      [ { fileId := "a.R", line := 2, environment := some 1,
          functionName := "" },
        { fileId := "a.R", line := 10, environment := some 2,
          functionName := "g" } ] ∧
    (∀ d : List ContextDump,
      getLastErrorStack (resetLastErrorStack d) = []) ∧
    (∀ d : List ContextDump,
      getLastErrorStack d = (buildStack d).dropLast) := by
  refine ⟨by decide, ?_, ?_⟩
  · intro d; rfl
  · intro d; rfl

end RDebuggerModel
